import Mathlib

/-!
Shallow embedding of `summarize_variants.py` (variant-discovery-pipeline).

Python dictionaries are modelled as insertion-ordered association lists
(`List (String × α)`): lookup takes the first matching key, setting an
existing key updates it in place, setting a fresh key appends it.
Exceptions that a function can raise after having mutated its dictionary
argument in place are modelled by `Except` whose error value carries the
message together with the dictionary state at the moment the exception is
raised, so that partial in-place mutation stays observable.
-/

namespace SV

/-- A value stored in a summary-entry dictionary or a DataFrame cell.
`qu` is an exact rational standing for a finite float quotient, `inf` and
`nan` are the IEEE special values pandas produces on division by zero. -/
inductive CellVal where
  | str : String → CellVal
  | strList : List String → CellVal
  | nat : Nat → CellVal
  | qu : Rat → CellVal
  | inf : CellVal
  | nan : CellVal
  deriving Repr, DecidableEq

/-- Python dict lookup: the binding of the key, if any. -/
def dictGet {α : Type} : List (String × α) → String → Option α
  | [], _ => none
  | p :: t, k => if p.1 = k then some p.2 else dictGet t k

/-- Python dict assignment: update an existing binding in place, otherwise
append the new binding at the end (insertion order). -/
def dictSet {α : Type} : List (String × α) → String → α → List (String × α)
  | [], k, v => [(k, v)]
  | p :: t, k, v => if p.1 = k then (k, v) :: t else p :: dictSet t k v

/-- One inner per-key dictionary of a summary (a position or gene entry). -/
abbrev Row := List (String × CellVal)

/-- A summary mapping: keys are coordinates or gene symbols. -/
abbrev Summary := List (String × Row)

/-- One structured record from an annotated VCF file: CHROM, POS, REF, the
ALT list, the three ANNOVAR INFO fields (each a list of strings that the
code joins with `''.join`), and the sample names. -/
structure VcfRecord where
  chrom : String
  pos : Int
  ref : String
  alt : List String
  func_refGene : List String
  gene_refGene : List String
  exonicFunc_refGene : List String
  samples : List String
  deriving Repr, DecidableEq

/-- An error message paired with the summary state observable when the
exception propagates (Python mutates the dict in place before raising). -/
abbrev ErrSt := String × Summary

/-- `variant_summary[key][field].append(x)`: the key must be present and the
field must hold a list; both always hold for entries this module creates. -/
def rowAppend (variant_summary : Summary) (key fieldName : String)
    (x : String) : Except ErrSt Summary :=
  match dictGet variant_summary key with
  | none => .error ("KeyError: " ++ key, variant_summary)
  | some row =>
    match dictGet row fieldName with
    | some (.strList l) =>
      .ok (dictSet variant_summary key (dictSet row fieldName (.strList (l ++ [x]))))
    | _ => .error ("AttributeError: append", variant_summary)

/-- `''.join(xs)` on a list of INFO strings. -/
def joinStrs (xs : List String) : String := String.join xs

/-- `'{}_{}'.format(record.CHROM, record.POS)`. -/
def positionKey (r : VcfRecord) : String := r.chrom ++ "_" ++ toString r.pos

/-- `'{}/{}'.format(record.REF, record.ALT[0])`. -/
def mutationStr (r : VcfRecord) : String := r.ref ++ "/" ++ r.alt.headD ""

/-- `'{}:{}'.format(record.samples[0].sample, record.samples[1].sample)`. -/
def samplePairStr (r : VcfRecord) : String :=
  r.samples.getD 0 "" ++ ":" ++ r.samples.getD 1 ""

/-- `update_position_entry` from summarize_variants.py: add one variant to
the position summary.  The entry is created and Function/Mutation appended
before the two-sample check, exactly as in the source: the error value
carries the already-mutated summary. -/
def update_position_entry (variant_summary : Summary) (r : VcfRecord)
    (position : String) (variant_type : String) : Except ErrSt Summary :=
  let variant_summary :=
    if (dictGet variant_summary position).isNone then
      let gene := joinStrs r.gene_refGene
      dictSet variant_summary position
        (dictSet (dictSet (dictSet (dictSet ([] : Row)
          "Gene" (.str gene))
          "Mutation" (.strList []))
          "Function" (.strList []))
          "Sample" (.strList []))
    else variant_summary
  match
    (if variant_type ∈ ["UTR3", "UTR5"] then
      rowAppend variant_summary position "Function" variant_type
    else if variant_type = "exonic" then
      rowAppend variant_summary position "Function" (joinStrs r.exonicFunc_refGene)
    else .ok variant_summary) with
  | .error e => .error e
  | .ok variant_summary =>
    match rowAppend variant_summary position "Mutation" (mutationStr r) with
    | .error e => .error e
    | .ok variant_summary =>
      if r.samples.length ≠ 2 then
        .error ("Annotated VCF has more than 2 samples!", variant_summary)
      else
        rowAppend variant_summary position "Sample" (samplePairStr r)

/-- The body of the record loop of `summarize_vcf_by_position`: filter on
the variant class, then merge the record. -/
def posStep (variant_summary : Summary) (r : VcfRecord) : Except ErrSt Summary :=
  let variant_function := joinStrs r.func_refGene
  if variant_function ∈ ["UTR3", "UTR5", "exonic"] then
    update_position_entry variant_summary r (positionKey r) variant_function
  else
    .ok variant_summary

/-- A Python for-loop over records with a possible raise: stop at the first
error, thread the summary through otherwise. -/
def foldRecords (step : Summary → VcfRecord → Except ErrSt Summary) :
    Summary → List VcfRecord → Except ErrSt Summary
  | s, [] => .ok s
  | s, r :: rs =>
    match step s r with
    | .ok s' => foldRecords step s' rs
    | .error e => .error e

/-- The visible file system: which path holds which records.  `open` on an
absent path raises FileNotFoundError. -/
abbrev FileSystem := List (String × List VcfRecord)

/-- `vcf.Reader(open(vcf_filepath, 'r'))` over the modelled file system. -/
def openVcf (fs : FileSystem) (path : String) : Option (List VcfRecord) :=
  dictGet fs path

/-- `summarize_vcf_by_position`: one sequential pass over one file. -/
def summarize_vcf_by_position (fs : FileSystem) (vcf_filepath : String)
    (variant_summary : Summary) : Except ErrSt Summary :=
  match openVcf fs vcf_filepath with
  | none => .error ("FileNotFoundError: " ++ vcf_filepath, variant_summary)
  | some records => foldRecords posStep variant_summary records

/-- The file loop of `summarize_by_position`. -/
def foldFiles (summarizeOne : FileSystem → String → Summary → Except ErrSt Summary)
    (fs : FileSystem) : Summary → List String → Except ErrSt Summary
  | s, [] => .ok s
  | s, v :: vs =>
    match summarizeOne fs v s with
    | .ok s' => foldFiles summarizeOne fs s' vs
    | .error e => .error e

/-- `summarize_by_position`: fold a list of files into one summary. -/
def summarize_by_position (fs : FileSystem) (vcfs : List String) :
    Except ErrSt Summary :=
  foldFiles summarize_vcf_by_position fs [] vcfs

/-- `variant_summary[gene][k] += 1` with default 1 when absent; raises
TypeError when the stored value is not an integer. -/
def countBump (variant_summary : Summary) (gene k : String) :
    Except ErrSt Summary :=
  match dictGet variant_summary gene with
  | none => .error ("KeyError: " ++ gene, variant_summary)
  | some row =>
    match dictGet row k with
    | some (.nat n) => .ok (dictSet variant_summary gene (dictSet row k (.nat (n + 1))))
    | none => .ok (dictSet variant_summary gene (dictSet row k (.nat 1)))
    | some _ => .error ("TypeError: +=", variant_summary)

/-- `update_gene_entry` from summarize_variants.py.  As in the source the
count bump and the Position/Mutation appends happen before the two-sample
check; only the Sample and SCC_samples_filtered appends come after it. -/
def update_gene_entry (variant_summary : Summary) (r : VcfRecord)
    (gene : String) (variant_type : String) : Except ErrSt Summary :=
  let variant_summary :=
    if (dictGet variant_summary gene).isNone then
      dictSet variant_summary gene
        (dictSet (dictSet (dictSet (dictSet ([] : Row)
          "Position" (.strList []))
          "Mutation" (.strList []))
          "Sample" (.strList []))
          "SCC_samples_filtered" (.strList []))
    else variant_summary
  let mutation_type := joinStrs r.exonicFunc_refGene
  match
    (if variant_type ∈ ["UTR3", "UTR5"] then
      countBump variant_summary gene variant_type
    else if variant_type = "exonic" then
      countBump variant_summary gene mutation_type
    else .ok variant_summary) with
  | .error e => .error e
  | .ok variant_summary =>
    match rowAppend variant_summary gene "Position" (positionKey r) with
    | .error e => .error e
    | .ok variant_summary =>
      match rowAppend variant_summary gene "Mutation" (mutationStr r) with
      | .error e => .error e
      | .ok variant_summary =>
        if r.samples.length ≠ 2 then
          .error ("Annotated VCF has more than 2 samples!", variant_summary)
        else
          let sample := samplePairStr r
          match rowAppend variant_summary gene "Sample" sample with
          | .error e => .error e
          | .ok variant_summary =>
            if variant_type = "exonic" ∧
                mutation_type ∈ ["nonsynonymous_SNV", "stopgain", "splicing"] then
              rowAppend variant_summary gene "SCC_samples_filtered" sample
            else
              .ok variant_summary

/-- The body of the record loop of `summarize_vcf_by_gene`. -/
def geneStep (variant_summary : Summary) (r : VcfRecord) : Except ErrSt Summary :=
  let variant_function := joinStrs r.func_refGene
  if variant_function ∈ ["UTR3", "UTR5", "exonic"] then
    update_gene_entry variant_summary r (joinStrs r.gene_refGene) variant_function
  else
    .ok variant_summary

/-- The closed vocabulary backfilled by `add_missing_gene_entries`. -/
def required_entries : List String :=
  ["UTR3", "UTR5",
   "frameshift_deletion", "frameshift_insertion",
   "nonframeshift_deletion", "nonframeshift_insertion",
   "nonframeshift_substitution", "nonsynonymous_SNV", "stopgain",
   "stoploss", "synonymous_SNV", "unknown"]

/-- Backfill one gene entry: any absent vocabulary key is set to 0. -/
def backfillRow (row : Row) : Row :=
  required_entries.foldl
    (fun row entry =>
      if (dictGet row entry).isNone then dictSet row entry (.nat 0) else row)
    row

/-- `add_missing_gene_entries`: backfill every gene entry. -/
def add_missing_gene_entries (variant_summary : Summary) : Summary :=
  variant_summary.map (fun p => (p.1, backfillRow p.2))

/-- `summarize_vcf_by_gene`: one pass over one file, then the backfill. -/
def summarize_vcf_by_gene (fs : FileSystem) (vcf_filepath : String)
    (variant_summary : Summary) : Except ErrSt Summary :=
  match openVcf fs vcf_filepath with
  | none => .error ("FileNotFoundError: " ++ vcf_filepath, variant_summary)
  | some records =>
    match foldRecords geneStep variant_summary records with
    | .error e => .error e
    | .ok s => .ok (add_missing_gene_entries s)

/-- `summarize_by_gene`: fold a list of files into one gene summary. -/
def summarize_by_gene (fs : FileSystem) (vcfs : List String) :
    Except ErrSt Summary :=
  foldFiles summarize_vcf_by_gene fs [] vcfs

/-! ## The pandas DataFrame model used by `build_summary_table`

Only the operations the source uses are modelled: `DataFrame.from_dict`
with `orient='index'` (columns are the union of the inner keys, missing
cells become NaN), column selection (KeyError when the column does not
exist), `.apply(set).apply(len)` on a column, elementwise division of two
integer columns (float semantics at zero denominators), column assignment,
and setting the index name. -/

/-- A pandas DataFrame: index name, column order, and per-index rows whose
inner dictionaries are complete over the columns. -/
structure DataFrame where
  indexName : Option String
  cols : List String
  rows : List (String × Row)
  deriving Repr, DecidableEq

/-- The column set of `pd.DataFrame.from_dict(d, orient='index')`: union of
the inner keys in first-encounter order. -/
def unionCols (d : Summary) : List String :=
  ((d.map (fun p => p.2.map (fun q => q.1))).flatten).dedup

/-- `pd.DataFrame.from_dict(d, orient='index')`: one row per key, cells
missing from an inner dict become NaN. -/
def DataFrame.from_dict (d : Summary) : DataFrame :=
  let cols := unionCols d
  { indexName := none
    cols := cols
    rows := d.map (fun p =>
      (p.1, cols.map (fun c => (c, (dictGet p.2 c).getD .nan)))) }

/-- A column extracted from a DataFrame: index labels paired with cells. -/
abbrev Series := List (String × CellVal)

/-- `df[c]`: KeyError when the column does not exist. -/
def dfGetCol (df : DataFrame) (c : String) : Except String Series :=
  if c ∈ df.cols then
    .ok (df.rows.map (fun r => (r.1, (dictGet r.2 c).getD .nan)))
  else
    .error ("KeyError: " ++ c)

/-- `df[c] = series` for a series positionally aligned with the rows (the
only case the source produces: every assigned series is derived from the
same frame, in row order). -/
def dfSetCol (df : DataFrame) (c : String) (vals : Series) : DataFrame :=
  { indexName := df.indexName
    cols := if c ∈ df.cols then df.cols else df.cols ++ [c]
    rows := (df.rows.zip vals).map (fun rv => (rv.1.1, dictSet rv.1.2 c rv.2.2)) }

/-- `set(x)` then `len` on one cell: the distinct-element count of a list
cell, the distinct-character count of a string cell (Python strings are
iterable); any other cell is not iterable and raises TypeError. -/
def applySetLen : CellVal → Except String CellVal
  | .strList l => .ok (.nat l.dedup.length)
  | .str s => .ok (.nat s.toList.dedup.length)
  | _ => .error "TypeError: not iterable"

/-- `.apply(set).apply(len)` over a column, elementwise with the first
failure propagating. -/
def seriesSetLen : Series → Except String Series
  | [] => .ok []
  | p :: ps =>
    match applySetLen p.2 with
    | .error e => .error e
    | .ok v =>
      match seriesSetLen ps with
      | .error e => .error e
      | .ok vs => .ok ((p.1, v) :: vs)

/-- Pandas division of two integer cells: true division after conversion to
float, so a zero denominator yields inf (or nan when the numerator is also
zero) instead of raising.  Count columns only ever hold integers, so the
other cell shapes do not arise. -/
def cellDiv : CellVal → CellVal → Except String CellVal
  | .nat a, .nat b =>
    if b = 0 then (if a = 0 then .ok .nan else .ok .inf)
    else .ok (.qu ((a : Rat) / (b : Rat)))
  | _, _ => .error "TypeError: unsupported operand"

/-- Elementwise division of two positionally aligned columns, stopping at
the shorter one (the source only ever divides equal-length columns). -/
def seriesDiv : Series → Series → Except String Series
  | [], _ => .ok []
  | _ :: _, [] => .ok []
  | p :: ps, q :: qs =>
    match cellDiv p.2 q.2 with
    | .error e => .error e
    | .ok v =>
      match seriesDiv ps qs with
      | .error e => .error e
      | .ok vs => .ok ((p.1, v) :: vs)

/-- `build_summary_table` from summarize_variants.py.  The Sample column is
selected before the summary-type dispatch, exactly as in the source, so an
empty summary raises KeyError for any summary_type. -/
def build_summary_table (variant_summary : Summary)
    (summary_type : String := "coordinate") : Except String DataFrame :=
  let df := DataFrame.from_dict variant_summary
  match dfGetCol df "Sample" with
  | .error e => .error e
  | .ok sampleCol =>
    match seriesSetLen sampleCol with
    | .error e => .error e
    | .ok numSCCs =>
      let df := dfSetCol df "NumberOfSCCs" numSCCs
      if summary_type = "gene" then
        match dfGetCol df "nonsynonymous_SNV" with
        | .error e => .error e
        | .ok nonsyn =>
          match dfGetCol df "synonymous_SNV" with
          | .error e => .error e
          | .ok syn =>
            match seriesDiv nonsyn syn with
            | .error e => .error e
            | .ok ratio =>
              let df := dfSetCol df "Non/Syn" ratio
              match dfGetCol df "SCC_samples_filtered" with
              | .error e => .error e
              | .ok sccCol =>
                match seriesSetLen sccCol with
                | .error e => .error e
                | .ok numFiltered =>
                  let df := dfSetCol df "NumberOfSCCs_filtered" numFiltered
                  .ok { df with indexName := some "Gene" }
      else if summary_type = "coordinate" then
        .ok { df with indexName := some "Coordinate" }
      else
        .error (summary_type ++ " not a valid summary_type!")

/-! ## Concrete records and file systems used as test inputs -/

/-- One well-formed exonic record: gene TP53, nonsynonymous SNV,
samples (TumorA, NormalA). -/
def recExonic : VcfRecord :=
  { chrom := "chr1", pos := 100, ref := "A", alt := ["T"],
    func_refGene := ["exonic"], gene_refGene := ["TP53"],
    exonicFunc_refGene := ["nonsynonymous_SNV"],
    samples := ["TumorA", "NormalA"] }

/-- The same record reporting three samples (violates the invariant). -/
def recThreeSamples : VcfRecord := { recExonic with samples := ["a", "b", "c"] }

/-- The same record with variant class `intronic` (filtered out). -/
def recIntronic : VcfRecord := { recExonic with func_refGene := ["intronic"] }

/-- A well-formed UTR3 record on another gene and coordinate. -/
def recUTR3 : VcfRecord :=
  { chrom := "chr2", pos := 5, ref := "G", alt := ["C"],
    func_refGene := ["UTR3"], gene_refGene := ["KRT5"],
    exonicFunc_refGene := [],
    samples := ["TumorB", "NormalB"] }

/-- A two-file file system with one record each. -/
def fsExample : FileSystem := [("a.vcf", [recExonic]), ("b.vcf", [recUTR3])]

/-- A well-formed record at the same coordinate as `recExonic` but carrying
a different gene symbol. -/
def recOtherGene : VcfRecord :=
  { recExonic with
    gene_refGene := ["EGFR"]
    ref := "C"
    alt := ["G"]
    samples := ["TumorC", "NormalC"] }

/-- The position summary obtained from processing `recExonic` alone. -/
def posSummaryExample : Summary :=
  [("chr1_100",
    [("Gene", .str "TP53"), ("Mutation", .strList ["A/T"]),
     ("Function", .strList ["nonsynonymous_SNV"]),
     ("Sample", .strList ["TumorA:NormalA"])])]

/-- The gene summary obtained from summarizing `a.vcf` of `fsExample`
(one exonic TP53 record), after the backfill pass. -/
def geneSummaryExample : Summary :=
  [("TP53",
    [("Position", .strList ["chr1_100"]), ("Mutation", .strList ["A/T"]),
     ("Sample", .strList ["TumorA:NormalA"]),
     ("SCC_samples_filtered", .strList ["TumorA:NormalA"]),
     ("nonsynonymous_SNV", .nat 1),
     ("UTR3", .nat 0), ("UTR5", .nat 0),
     ("frameshift_deletion", .nat 0), ("frameshift_insertion", .nat 0),
     ("nonframeshift_deletion", .nat 0), ("nonframeshift_insertion", .nat 0),
     ("nonframeshift_substitution", .nat 0), ("stopgain", .nat 0),
     ("stoploss", .nat 0), ("synonymous_SNV", .nat 0), ("unknown", .nat 0)])]

/-! ## Projections and well-formedness of summaries -/

/-- The list stored under `fieldName` in the entry for `k`; `[]` when the
key or field is absent or the field is not a list. -/
def listFieldAt (s : Summary) (k fieldName : String) : List String :=
  match dictGet s k with
  | none => []
  | some row =>
    match dictGet row fieldName with
    | some (.strList l) => l
    | _ => []

/-- The `Gene` cell of the entry for `k`, when present. -/
def geneFieldAt (s : Summary) (k : String) : Option CellVal :=
  (dictGet s k).bind (fun row => dictGet row "Gene")

/-- Shape test: the optional cell holds a list of strings. -/
def isStrListO : Option CellVal → Bool
  | some (.strList _) => true
  | _ => false

/-- Shape test: the cell holds an integer. -/
def isNatCell : CellVal → Bool
  | .nat _ => true
  | _ => false

/-- A position entry as this module creates it: Mutation, Function and
Sample hold lists. -/
def PosRowWF (row : Row) : Prop :=
  isStrListO (dictGet row "Mutation") = true ∧
  isStrListO (dictGet row "Function") = true ∧
  isStrListO (dictGet row "Sample") = true

instance (row : Row) : Decidable (PosRowWF row) := by
  unfold PosRowWF; infer_instance

def PosWF (s : Summary) : Prop := ∀ p ∈ s, PosRowWF p.2

instance (s : Summary) : Decidable (PosWF s) := by
  unfold PosWF; infer_instance

/-- The four sequence-valued keys of a gene entry. -/
def geneListKeys : List String :=
  ["Position", "Mutation", "Sample", "SCC_samples_filtered"]

/-- A gene entry as this module creates it: the four sequence keys hold
lists and every other key holds an integer count. -/
def GeneRowWF (row : Row) : Prop :=
  isStrListO (dictGet row "Position") = true ∧
  isStrListO (dictGet row "Mutation") = true ∧
  isStrListO (dictGet row "Sample") = true ∧
  isStrListO (dictGet row "SCC_samples_filtered") = true ∧
  ∀ p ∈ row, p.1 ∉ geneListKeys → isNatCell p.2 = true

instance (row : Row) : Decidable (GeneRowWF row) := by
  unfold GeneRowWF; infer_instance

def GeneWF (s : Summary) : Prop := ∀ p ∈ s, GeneRowWF p.2

instance (s : Summary) : Decidable (GeneWF s) := by
  unfold GeneWF; infer_instance

/-- The Function value a retained record contributes: the UTR tag for UTR
records, the exonic mutation subtype otherwise. -/
def functionTag (r : VcfRecord) : String :=
  if joinStrs r.func_refGene ∈ ["UTR3", "UTR5"] then joinStrs r.func_refGene
  else joinStrs r.exonicFunc_refGene

/-- A record whose variant class is one of the three retained tags. -/
def retained (r : VcfRecord) : Prop :=
  joinStrs r.func_refGene ∈ ["UTR3", "UTR5", "exonic"]

instance (r : VcfRecord) : Decidable (retained r) := by
  unfold retained; infer_instance

/-- Whether a record contributes an element to the position entry `k`. -/
def contributesB (k : String) (r : VcfRecord) : Bool :=
  decide (retained r) && (positionKey r == k)

/-- All records of the listed files in batch order (files assumed present). -/
def recordsOf (fs : FileSystem) (vcfs : List String) : List VcfRecord :=
  (vcfs.map (fun v => (openVcf fs v).getD [])).flatten

/-- All twelve vocabulary keys map to an integer in every entry. -/
def CountsPresent (s : Summary) : Prop :=
  ∀ g row, dictGet s g = some row → ∀ k ∈ required_entries,
    ∃ n : Nat, dictGet row k = some (.nat n)


/-! ## Dictionary lemmas -/

theorem dictGet_nil {α : Type} (k : String) :
    dictGet ([] : List (String × α)) k = none := rfl

theorem dictGet_cons {α : Type} (p : String × α) (t : List (String × α)) (k : String) :
    dictGet (p :: t) k = if p.1 = k then some p.2 else dictGet t k := rfl

/-- The fundamental dict lemma: reading after writing. -/
theorem dictGet_dictSet {α : Type} (d : List (String × α)) (k : String) (v : α)
    (k' : String) :
    dictGet (dictSet d k v) k' = if k' = k then some v else dictGet d k' := by
  induction d with
  | nil =>
    simp only [dictSet, dictGet]
    by_cases hk : k = k'
    · subst hk; simp
    · simp [hk, Ne.symm hk]
  | cons p t ih =>
    by_cases hpk : p.1 = k
    · simp only [dictSet, if_pos hpk, dictGet]
      by_cases hk : k = k'
      · subst hk; simp [dictGet_cons, hpk]
      · simp [hk, Ne.symm hk, hpk, dictGet_cons]
    · simp only [dictSet, if_neg hpk, dictGet_cons, ih]
      by_cases hpk' : p.1 = k'
      · have : ¬ (k' = k) := fun hc => hpk (hpk'.trans hc)
        simp [hpk', this]
      · simp [hpk']

theorem dictGet_dictSet_self {α : Type} (d : List (String × α)) (k : String) (v : α) :
    dictGet (dictSet d k v) k = some v := by
  rw [dictGet_dictSet]; simp

theorem dictGet_dictSet_ne {α : Type} (d : List (String × α)) (k : String) (v : α)
    (k' : String) (h : k' ≠ k) :
    dictGet (dictSet d k v) k' = dictGet d k' := by
  rw [dictGet_dictSet, if_neg h]

/-- Reading a dict whose entries were value-mapped. -/
theorem dictGet_map_snd {α β : Type} (F : α → β) (d : List (String × α)) (k : String) :
    dictGet (d.map (fun p => (p.1, F p.2))) k = (dictGet d k).map F := by
  induction d with
  | nil => rfl
  | cons p t ih =>
    by_cases hpk : p.1 = k
    · simp [dictGet_cons, hpk]
    · simp [dictGet_cons, hpk, ih]

/-- Reading a dict built from a key list by tabulation. -/
theorem dictGet_tabulate (cols : List String) (F : String → CellVal) (c : String) :
    dictGet (cols.map (fun c₀ => (c₀, F c₀))) c =
      if c ∈ cols then some (F c) else none := by
  induction cols with
  | nil => rfl
  | cons a t ih =>
    by_cases hac : a = c
    · subst hac; simp [dictGet_cons]
    · simp [dictGet_cons, hac, ih, Ne.symm hac]

/-- A successful lookup means the pair is in the list. -/
theorem mem_of_dictGet {α : Type} {d : List (String × α)} {k : String} {v : α}
    (h : dictGet d k = some v) : (k, v) ∈ d := by
  induction d with
  | nil => simp [dictGet] at h
  | cons p t ih =>
    rw [dictGet_cons] at h
    by_cases hpk : p.1 = k
    · rw [if_pos hpk] at h
      injection h with h
      obtain ⟨a, b⟩ := p
      dsimp at hpk h
      subst hpk
      subst h
      exact List.mem_cons_self _ _
    · rw [if_neg hpk] at h
      exact List.mem_cons_of_mem _ (ih h)

/-- Writing preserves the key list except for possibly appending the new key. -/
theorem dictSet_keys {α : Type} (d : List (String × α)) (k : String) (v : α) :
    (dictSet d k v).map Prod.fst = d.map Prod.fst ∨
      (dictSet d k v).map Prod.fst = d.map Prod.fst ++ [k] := by
  induction d with
  | nil => right; rfl
  | cons p t ih =>
    by_cases hpk : p.1 = k
    · left; simp [dictSet, hpk]
    · rcases ih with h | h
      · left; simp [dictSet, hpk, h]
      · right; simp [dictSet, hpk, h]

theorem posRowWF_of_dictGet {s : Summary} {k : String} {row : Row}
    (hwf : PosWF s) (h : dictGet s k = some row) : PosRowWF row :=
  hwf (k, row) (mem_of_dictGet h)

theorem geneRowWF_of_dictGet {s : Summary} {k : String} {row : Row}
    (hwf : GeneWF s) (h : dictGet s k = some row) : GeneRowWF row :=
  hwf (k, row) (mem_of_dictGet h)

/-! ## Behaviour of the update helpers -/

theorem isStrListO_iff (o : Option CellVal) :
    isStrListO o = true ↔ ∃ l, o = some (.strList l) := by
  cases o with
  | none => simp [isStrListO]
  | some v => cases v <;> simp [isStrListO]

theorem isNatCell_iff (v : CellVal) :
    isNatCell v = true ↔ ∃ n, v = .nat n := by
  cases v <;> simp [isNatCell]

theorem mem_dictSet {α : Type} {p : String × α} {d : List (String × α)}
    {k : String} {v : α} (h : p ∈ dictSet d k v) : p ∈ d ∨ p = (k, v) := by
  induction d with
  | nil => simp [dictSet] at h; right; exact h
  | cons q t ih =>
    by_cases hqk : q.1 = k
    · simp only [dictSet, if_pos hqk, List.mem_cons] at h
      rcases h with h | h
      · right; exact h
      · left; exact List.mem_cons_of_mem _ h
    · simp only [dictSet, if_neg hqk, List.mem_cons] at h
      rcases h with h | h
      · left; exact h ▸ List.mem_cons_self _ _
      · rcases ih h with h | h
        · left; exact List.mem_cons_of_mem _ h
        · right; exact h

theorem posWF_dictSet {s : Summary} {k : String} {row : Row}
    (hwf : PosWF s) (hrow : PosRowWF row) : PosWF (dictSet s k row) := by
  intro p hp
  rcases mem_dictSet hp with h | h
  · exact hwf p h
  · rw [h]; exact hrow

theorem geneWF_dictSet {s : Summary} {k : String} {row : Row}
    (hwf : GeneWF s) (hrow : GeneRowWF row) : GeneWF (dictSet s k row) := by
  intro p hp
  rcases mem_dictSet hp with h | h
  · exact hwf p h
  · rw [h]; exact hrow

/-- A successful list append inside an entry. -/
theorem rowAppend_ok {s : Summary} {key f x : String} {row : Row} {l : List String}
    (hrow : dictGet s key = some row) (hf : dictGet row f = some (.strList l)) :
    rowAppend s key f x =
      .ok (dictSet s key (dictSet row f (.strList (l ++ [x])))) := by
  simp [rowAppend, hrow, hf]

/-- What one successful position-step does to the summary: the key's entry
exists afterwards; its Gene cell is the pre-existing one or, for a fresh
entry, the record's gene symbol; the three sequences each grow by exactly
the record's contribution; every other key is untouched. -/
theorem posStep_ok (s : Summary) (r : VcfRecord)
    (hwf : PosWF s) (h2 : r.samples.length = 2) (hret : retained r) :
    ∃ s₁, posStep s r = .ok s₁ ∧ PosWF s₁ ∧
      (∀ k, k ≠ positionKey r → dictGet s₁ k = dictGet s k) ∧
      (dictGet s₁ (positionKey r)).isSome = true ∧
      geneFieldAt s₁ (positionKey r) =
        (if (dictGet s (positionKey r)).isSome = true then
          geneFieldAt s (positionKey r)
        else some (.str (joinStrs r.gene_refGene))) ∧
      listFieldAt s₁ (positionKey r) "Mutation" =
        listFieldAt s (positionKey r) "Mutation" ++ [mutationStr r] ∧
      listFieldAt s₁ (positionKey r) "Function" =
        listFieldAt s (positionKey r) "Function" ++ [functionTag r] ∧
      listFieldAt s₁ (positionKey r) "Sample" =
        listFieldAt s (positionKey r) "Sample" ++ [samplePairStr r] := by
  have hret' : joinStrs r.func_refGene ∈ ["UTR3", "UTR5", "exonic"] := hret
  obtain ⟨s0, row0, hs0, hrow, hgene0, hm0, hf0, hsm0, hwf0, hframe0⟩ :
      ∃ s0 row0,
        (if (dictGet s (positionKey r)).isNone then
          dictSet s (positionKey r)
            (dictSet (dictSet (dictSet (dictSet ([] : Row)
              "Gene" (.str (joinStrs r.gene_refGene)))
              "Mutation" (.strList []))
              "Function" (.strList []))
              "Sample" (.strList []))
        else s) = s0 ∧
        dictGet s0 (positionKey r) = some row0 ∧
        dictGet row0 "Gene" =
          (if (dictGet s (positionKey r)).isSome = true then
            geneFieldAt s (positionKey r)
          else some (.str (joinStrs r.gene_refGene))) ∧
        dictGet row0 "Mutation" =
          some (.strList (listFieldAt s (positionKey r) "Mutation")) ∧
        dictGet row0 "Function" =
          some (.strList (listFieldAt s (positionKey r) "Function")) ∧
        dictGet row0 "Sample" =
          some (.strList (listFieldAt s (positionKey r) "Sample")) ∧
        PosWF s0 ∧
        (∀ k, k ≠ positionKey r → dictGet s0 k = dictGet s k) := by
    cases hmem : dictGet s (positionKey r) with
    | some row =>
      obtain ⟨h1, h2', h3⟩ := posRowWF_of_dictGet hwf hmem
      obtain ⟨lm, hlm⟩ := (isStrListO_iff _).1 h1
      obtain ⟨lf, hlf⟩ := (isStrListO_iff _).1 h2'
      obtain ⟨lsm, hlsm⟩ := (isStrListO_iff _).1 h3
      refine ⟨s, row, by simp [hmem], hmem, ?_, ?_, ?_, ?_, hwf, fun k hk => rfl⟩
      · simp [hmem, geneFieldAt]
      · rw [hlm]; simp [listFieldAt, hmem, hlm]
      · rw [hlf]; simp [listFieldAt, hmem, hlf]
      · rw [hlsm]; simp [listFieldAt, hmem, hlsm]
    | none =>
      refine ⟨dictSet s (positionKey r)
          (dictSet (dictSet (dictSet (dictSet ([] : Row)
            "Gene" (.str (joinStrs r.gene_refGene)))
            "Mutation" (.strList []))
            "Function" (.strList []))
            "Sample" (.strList [])), _,
        by simp [hmem], dictGet_dictSet_self _ _ _, ?_, ?_, ?_, ?_, ?_,
        fun k hk => dictGet_dictSet_ne _ _ _ _ hk⟩
      · simp [hmem, dictSet, dictGet]
      · simp [listFieldAt, hmem, dictSet, dictGet]
      · simp [listFieldAt, hmem, dictSet, dictGet]
      · simp [listFieldAt, hmem, dictSet, dictGet]
      · exact posWF_dictSet hwf (by constructor <;> simp [dictSet, dictGet, isStrListO])
  set row1 := dictSet row0 "Function"
    (.strList (listFieldAt s (positionKey r) "Function" ++ [functionTag r])) with hrow1
  set s1 := dictSet s0 (positionKey r) row1 with hs1
  set row2 := dictSet row1 "Mutation"
    (.strList (listFieldAt s (positionKey r) "Mutation" ++ [mutationStr r])) with hrow2
  set s2 := dictSet s1 (positionKey r) row2 with hs2
  set row3 := dictSet row2 "Sample"
    (.strList (listFieldAt s (positionKey r) "Sample" ++ [samplePairStr r])) with hrow3
  set s3 := dictSet s2 (positionKey r) row3 with hs3
  have hbr : (if joinStrs r.func_refGene ∈ ["UTR3", "UTR5"] then
        rowAppend s0 (positionKey r) "Function" (joinStrs r.func_refGene)
      else if joinStrs r.func_refGene = "exonic" then
        rowAppend s0 (positionKey r) "Function" (joinStrs r.exonicFunc_refGene)
      else .ok s0) = rowAppend s0 (positionKey r) "Function" (functionTag r) := by
    have h3 : joinStrs r.func_refGene = "UTR3" ∨ joinStrs r.func_refGene = "UTR5" ∨
        joinStrs r.func_refGene = "exonic" := by simpa using hret'
    rcases h3 with h | h | h <;> simp [functionTag, h]
  have e1 : rowAppend s0 (positionKey r) "Function" (functionTag r) = .ok s1 := by
    rw [hs1, hrow1]; exact rowAppend_ok hrow hf0
  have hrowS1 : dictGet s1 (positionKey r) = some row1 := by
    rw [hs1]; exact dictGet_dictSet_self _ _ _
  have hm1 : dictGet row1 "Mutation" =
      some (.strList (listFieldAt s (positionKey r) "Mutation")) := by
    rw [hrow1, dictGet_dictSet_ne _ _ _ _ (by decide)]; exact hm0
  have e2 : rowAppend s1 (positionKey r) "Mutation" (mutationStr r) = .ok s2 := by
    rw [hs2, hrow2]; exact rowAppend_ok hrowS1 hm1
  have hrowS2 : dictGet s2 (positionKey r) = some row2 := by
    rw [hs2]; exact dictGet_dictSet_self _ _ _
  have hsm2 : dictGet row2 "Sample" =
      some (.strList (listFieldAt s (positionKey r) "Sample")) := by
    rw [hrow2, dictGet_dictSet_ne _ _ _ _ (by decide),
      hrow1, dictGet_dictSet_ne _ _ _ _ (by decide)]
    exact hsm0
  have e3 : rowAppend s2 (positionKey r) "Sample" (samplePairStr r) = .ok s3 := by
    rw [hs3, hrow3]; exact rowAppend_ok hrowS2 hsm2
  have hrowS3 : dictGet s3 (positionKey r) = some row3 := by
    rw [hs3]; exact dictGet_dictSet_self _ _ _
  refine ⟨s3, ?_, ?_, ?_, ?_, ?_, ?_, ?_, ?_⟩
  · simp only [posStep]
    rw [if_pos hret']
    simp only [update_position_entry]
    rw [hs0, hbr, e1]
    simp only [e2, h2]
    simp only [e3]
    simp
  · rw [hs3]
    refine posWF_dictSet ?_ ?_
    · rw [hs2]
      refine posWF_dictSet ?_ ?_
      · rw [hs1]
        refine posWF_dictSet hwf0 ?_
        refine ⟨?_, ?_, ?_⟩
        · rw [hrow1, dictGet_dictSet_ne _ _ _ _ (by decide), hm0]; rfl
        · rw [hrow1, dictGet_dictSet_self]; rfl
        · rw [hrow1, dictGet_dictSet_ne _ _ _ _ (by decide), hsm0]; rfl
      · refine ⟨?_, ?_, ?_⟩
        · rw [hrow2, dictGet_dictSet_self]; rfl
        · rw [hrow2, dictGet_dictSet_ne _ _ _ _ (by decide),
            hrow1, dictGet_dictSet_self]; rfl
        · rw [hsm2]; rfl
    · refine ⟨?_, ?_, ?_⟩
      · rw [hrow3, dictGet_dictSet_ne _ _ _ _ (by decide),
          hrow2, dictGet_dictSet_self]; rfl
      · rw [hrow3, dictGet_dictSet_ne _ _ _ _ (by decide), hrow2,
          dictGet_dictSet_ne _ _ _ _ (by decide), hrow1, dictGet_dictSet_self]; rfl
      · rw [hrow3, dictGet_dictSet_self]; rfl
  · intro k hk
    rw [hs3, dictGet_dictSet_ne _ _ _ _ hk, hs2, dictGet_dictSet_ne _ _ _ _ hk,
      hs1, dictGet_dictSet_ne _ _ _ _ hk]
    exact hframe0 k hk
  · rw [hrowS3]; rfl
  · have hg3 : dictGet row3 "Gene" = dictGet row0 "Gene" := by
      rw [hrow3, dictGet_dictSet_ne _ _ _ _ (by decide), hrow2,
        dictGet_dictSet_ne _ _ _ _ (by decide), hrow1,
        dictGet_dictSet_ne _ _ _ _ (by decide)]
    simp only [geneFieldAt, hrowS3, Option.bind, hg3]
    exact hgene0
  · have hm3 : dictGet row3 "Mutation" =
        some (.strList (listFieldAt s (positionKey r) "Mutation" ++ [mutationStr r])) := by
      rw [hrow3, dictGet_dictSet_ne _ _ _ _ (by decide), hrow2, dictGet_dictSet_self]
    simp only [listFieldAt, hrowS3, hm3]
  · have hf3 : dictGet row3 "Function" =
        some (.strList (listFieldAt s (positionKey r) "Function" ++ [functionTag r])) := by
      rw [hrow3, dictGet_dictSet_ne _ _ _ _ (by decide), hrow2,
        dictGet_dictSet_ne _ _ _ _ (by decide), hrow1, dictGet_dictSet_self]
    simp only [listFieldAt, hrowS3, hf3]
  · have hsm3 : dictGet row3 "Sample" =
        some (.strList (listFieldAt s (positionKey r) "Sample" ++ [samplePairStr r])) := by
      rw [hrow3, dictGet_dictSet_self]
    simp only [listFieldAt, hrowS3, hsm3]

/-- What a failing position-step does: a retained record with a sample
count other than two raises the two-sample error.  In the summary observed
at the exception the Sample sequence of the key is untouched, other keys
are untouched, but the Mutation sequence has already received the record's
mutation string (the check fires only after those appends). -/
theorem posStep_err (s : Summary) (r : VcfRecord)
    (hwf : PosWF s) (hbad : r.samples.length ≠ 2) (hret : retained r) :
    ∃ s₂, posStep s r = .error ("Annotated VCF has more than 2 samples!", s₂) ∧
      listFieldAt s₂ (positionKey r) "Sample" =
        listFieldAt s (positionKey r) "Sample" ∧
      (∀ k, k ≠ positionKey r → dictGet s₂ k = dictGet s k) ∧
      listFieldAt s₂ (positionKey r) "Mutation" =
        listFieldAt s (positionKey r) "Mutation" ++ [mutationStr r] := by
  have hret' : joinStrs r.func_refGene ∈ ["UTR3", "UTR5", "exonic"] := hret
  obtain ⟨s0, row0, hs0, hrow, hgene0, hm0, hf0, hsm0, hwf0, hframe0⟩ :
      ∃ s0 row0,
        (if (dictGet s (positionKey r)).isNone then
          dictSet s (positionKey r)
            (dictSet (dictSet (dictSet (dictSet ([] : Row)
              "Gene" (.str (joinStrs r.gene_refGene)))
              "Mutation" (.strList []))
              "Function" (.strList []))
              "Sample" (.strList []))
        else s) = s0 ∧
        dictGet s0 (positionKey r) = some row0 ∧
        dictGet row0 "Gene" =
          (if (dictGet s (positionKey r)).isSome = true then
            geneFieldAt s (positionKey r)
          else some (.str (joinStrs r.gene_refGene))) ∧
        dictGet row0 "Mutation" =
          some (.strList (listFieldAt s (positionKey r) "Mutation")) ∧
        dictGet row0 "Function" =
          some (.strList (listFieldAt s (positionKey r) "Function")) ∧
        dictGet row0 "Sample" =
          some (.strList (listFieldAt s (positionKey r) "Sample")) ∧
        PosWF s0 ∧
        (∀ k, k ≠ positionKey r → dictGet s0 k = dictGet s k) := by
    cases hmem : dictGet s (positionKey r) with
    | some row =>
      obtain ⟨h1, h2', h3⟩ := posRowWF_of_dictGet hwf hmem
      obtain ⟨lm, hlm⟩ := (isStrListO_iff _).1 h1
      obtain ⟨lf, hlf⟩ := (isStrListO_iff _).1 h2'
      obtain ⟨lsm, hlsm⟩ := (isStrListO_iff _).1 h3
      refine ⟨s, row, by simp [hmem], hmem, ?_, ?_, ?_, ?_, hwf, fun k hk => rfl⟩
      · simp [hmem, geneFieldAt]
      · rw [hlm]; simp [listFieldAt, hmem, hlm]
      · rw [hlf]; simp [listFieldAt, hmem, hlf]
      · rw [hlsm]; simp [listFieldAt, hmem, hlsm]
    | none =>
      refine ⟨dictSet s (positionKey r)
          (dictSet (dictSet (dictSet (dictSet ([] : Row)
            "Gene" (.str (joinStrs r.gene_refGene)))
            "Mutation" (.strList []))
            "Function" (.strList []))
            "Sample" (.strList [])), _,
        by simp [hmem], dictGet_dictSet_self _ _ _, ?_, ?_, ?_, ?_, ?_,
        fun k hk => dictGet_dictSet_ne _ _ _ _ hk⟩
      · simp [hmem, dictSet, dictGet]
      · simp [listFieldAt, hmem, dictSet, dictGet]
      · simp [listFieldAt, hmem, dictSet, dictGet]
      · simp [listFieldAt, hmem, dictSet, dictGet]
      · exact posWF_dictSet hwf (by constructor <;> simp [dictSet, dictGet, isStrListO])
  set row1 := dictSet row0 "Function"
    (.strList (listFieldAt s (positionKey r) "Function" ++ [functionTag r])) with hrow1
  set s1 := dictSet s0 (positionKey r) row1 with hs1
  set row2 := dictSet row1 "Mutation"
    (.strList (listFieldAt s (positionKey r) "Mutation" ++ [mutationStr r])) with hrow2
  set s2 := dictSet s1 (positionKey r) row2 with hs2
  have hbr : (if joinStrs r.func_refGene ∈ ["UTR3", "UTR5"] then
        rowAppend s0 (positionKey r) "Function" (joinStrs r.func_refGene)
      else if joinStrs r.func_refGene = "exonic" then
        rowAppend s0 (positionKey r) "Function" (joinStrs r.exonicFunc_refGene)
      else .ok s0) = rowAppend s0 (positionKey r) "Function" (functionTag r) := by
    have h3 : joinStrs r.func_refGene = "UTR3" ∨ joinStrs r.func_refGene = "UTR5" ∨
        joinStrs r.func_refGene = "exonic" := by simpa using hret'
    rcases h3 with h | h | h <;> simp [functionTag, h]
  have e1 : rowAppend s0 (positionKey r) "Function" (functionTag r) = .ok s1 := by
    rw [hs1, hrow1]; exact rowAppend_ok hrow hf0
  have hrowS1 : dictGet s1 (positionKey r) = some row1 := by
    rw [hs1]; exact dictGet_dictSet_self _ _ _
  have hm1 : dictGet row1 "Mutation" =
      some (.strList (listFieldAt s (positionKey r) "Mutation")) := by
    rw [hrow1, dictGet_dictSet_ne _ _ _ _ (by decide)]; exact hm0
  have e2 : rowAppend s1 (positionKey r) "Mutation" (mutationStr r) = .ok s2 := by
    rw [hs2, hrow2]; exact rowAppend_ok hrowS1 hm1
  have hrowS2 : dictGet s2 (positionKey r) = some row2 := by
    rw [hs2]; exact dictGet_dictSet_self _ _ _
  have hsm2 : dictGet row2 "Sample" =
      some (.strList (listFieldAt s (positionKey r) "Sample")) := by
    rw [hrow2, dictGet_dictSet_ne _ _ _ _ (by decide),
      hrow1, dictGet_dictSet_ne _ _ _ _ (by decide)]
    exact hsm0
  have hm2 : dictGet row2 "Mutation" =
      some (.strList (listFieldAt s (positionKey r) "Mutation" ++ [mutationStr r])) := by
    rw [hrow2, dictGet_dictSet_self]
  refine ⟨s2, ?_, ?_, ?_, ?_⟩
  · simp only [posStep]
    rw [if_pos hret']
    simp only [update_position_entry]
    rw [hs0, hbr, e1]
    simp only [e2]
    rw [if_pos hbad]
  · simp only [listFieldAt, hrowS2, hsm2]
  · intro k hk
    rw [hs2, dictGet_dictSet_ne _ _ _ _ hk, hs1, dictGet_dictSet_ne _ _ _ _ hk]
    exact hframe0 k hk
  · simp only [listFieldAt, hrowS2, hm2]

theorem geneRowWF_listKey {row : Row} (h : GeneRowWF row) {k : String}
    (hk : k ∈ geneListKeys) : isStrListO (dictGet row k) = true := by
  obtain ⟨h1, h2, h3, h4, _⟩ := h
  have hk' : k = "Position" ∨ k = "Mutation" ∨ k = "Sample" ∨
      k = "SCC_samples_filtered" := by simpa [geneListKeys] using hk
  rcases hk' with rfl | rfl | rfl | rfl <;> assumption

theorem geneRowWF_natKey {row : Row} (h : GeneRowWF row) {k : String} {v : CellVal}
    (hv : dictGet row k = some v) (hk : k ∉ geneListKeys) : isNatCell v = true :=
  h.2.2.2.2 (k, v) (mem_of_dictGet hv) hk

/-- What a failing gene-step does: a retained record with a sample count
other than two raises the two-sample error after the count bump and the
Position/Mutation appends, but before the Sample and SCC appends: in the
error-state summary the key's Sample and SCC_samples_filtered sequences and
all other keys are untouched. -/
theorem geneStep_err (s : Summary) (r : VcfRecord)
    (hwf : GeneWF s) (hbad : r.samples.length ≠ 2) (hret : retained r)
    (htag : functionTag r ∉ geneListKeys) :
    ∃ s₂, geneStep s r = .error ("Annotated VCF has more than 2 samples!", s₂) ∧
      listFieldAt s₂ (joinStrs r.gene_refGene) "Sample" =
        listFieldAt s (joinStrs r.gene_refGene) "Sample" ∧
      listFieldAt s₂ (joinStrs r.gene_refGene) "SCC_samples_filtered" =
        listFieldAt s (joinStrs r.gene_refGene) "SCC_samples_filtered" ∧
      (∀ k, k ≠ joinStrs r.gene_refGene → dictGet s₂ k = dictGet s k) := by
  have hret' : joinStrs r.func_refGene ∈ ["UTR3", "UTR5", "exonic"] := hret
  obtain ⟨s0, row0, hs0, hrow, hp0, hm0, hsm0, hscc0, hwf0, hframe0⟩ :
      ∃ s0 row0,
        (if (dictGet s (joinStrs r.gene_refGene)).isNone then
          dictSet s (joinStrs r.gene_refGene)
            (dictSet (dictSet (dictSet (dictSet ([] : Row)
              "Position" (.strList []))
              "Mutation" (.strList []))
              "Sample" (.strList []))
              "SCC_samples_filtered" (.strList []))
        else s) = s0 ∧
        dictGet s0 (joinStrs r.gene_refGene) = some row0 ∧
        dictGet row0 "Position" =
          some (.strList (listFieldAt s (joinStrs r.gene_refGene) "Position")) ∧
        dictGet row0 "Mutation" =
          some (.strList (listFieldAt s (joinStrs r.gene_refGene) "Mutation")) ∧
        dictGet row0 "Sample" =
          some (.strList (listFieldAt s (joinStrs r.gene_refGene) "Sample")) ∧
        dictGet row0 "SCC_samples_filtered" =
          some (.strList (listFieldAt s (joinStrs r.gene_refGene) "SCC_samples_filtered")) ∧
        GeneWF s0 ∧
        (∀ k, k ≠ joinStrs r.gene_refGene → dictGet s0 k = dictGet s k) := by
    cases hmem : dictGet s (joinStrs r.gene_refGene) with
    | some row =>
      obtain ⟨h1, h2', h3, h4, _⟩ := geneRowWF_of_dictGet hwf hmem
      obtain ⟨lp, hlp⟩ := (isStrListO_iff _).1 h1
      obtain ⟨lm, hlm⟩ := (isStrListO_iff _).1 h2'
      obtain ⟨lsm, hlsm⟩ := (isStrListO_iff _).1 h3
      obtain ⟨lscc, hlscc⟩ := (isStrListO_iff _).1 h4
      refine ⟨s, row, by simp [hmem], hmem, ?_, ?_, ?_, ?_, hwf, fun k hk => rfl⟩
      · rw [hlp]; simp [listFieldAt, hmem, hlp]
      · rw [hlm]; simp [listFieldAt, hmem, hlm]
      · rw [hlsm]; simp [listFieldAt, hmem, hlsm]
      · rw [hlscc]; simp [listFieldAt, hmem, hlscc]
    | none =>
      refine ⟨dictSet s (joinStrs r.gene_refGene)
          (dictSet (dictSet (dictSet (dictSet ([] : Row)
            "Position" (.strList []))
            "Mutation" (.strList []))
            "Sample" (.strList []))
            "SCC_samples_filtered" (.strList [])), _,
        by simp [hmem], dictGet_dictSet_self _ _ _, ?_, ?_, ?_, ?_, ?_,
        fun k hk => dictGet_dictSet_ne _ _ _ _ hk⟩
      · simp [listFieldAt, hmem, dictSet, dictGet]
      · simp [listFieldAt, hmem, dictSet, dictGet]
      · simp [listFieldAt, hmem, dictSet, dictGet]
      · simp [listFieldAt, hmem, dictSet, dictGet]
      · exact geneWF_dictSet hwf (by decide)
  have hwfRow0 : GeneRowWF row0 := geneRowWF_of_dictGet hwf0 hrow
  have hnePos : ("Position" : String) ≠ functionTag r := by
    intro hc; exact htag (hc ▸ (by decide : ("Position" : String) ∈ geneListKeys))
  have hneMut : ("Mutation" : String) ≠ functionTag r := by
    intro hc; exact htag (hc ▸ (by decide : ("Mutation" : String) ∈ geneListKeys))
  have hneSam : ("Sample" : String) ≠ functionTag r := by
    intro hc; exact htag (hc ▸ (by decide : ("Sample" : String) ∈ geneListKeys))
  have hneScc : ("SCC_samples_filtered" : String) ≠ functionTag r := by
    intro hc
    exact htag (hc ▸ (by decide : ("SCC_samples_filtered" : String) ∈ geneListKeys))
  obtain ⟨m, hbump⟩ : ∃ m, countBump s0 (joinStrs r.gene_refGene) (functionTag r) =
      .ok (dictSet s0 (joinStrs r.gene_refGene)
        (dictSet row0 (functionTag r) (.nat m))) := by
    cases hcell : dictGet row0 (functionTag r) with
    | none => exact ⟨1, by simp [countBump, hrow, hcell]⟩
    | some v =>
      obtain ⟨n, rfl⟩ := (isNatCell_iff v).1 (geneRowWF_natKey hwfRow0 hcell htag)
      exact ⟨n + 1, by simp [countBump, hrow, hcell]⟩
  set row1 := dictSet row0 (functionTag r) (.nat m) with hrow1
  set s1 := dictSet s0 (joinStrs r.gene_refGene) row1 with hs1
  set row2 := dictSet row1 "Position"
    (.strList (listFieldAt s (joinStrs r.gene_refGene) "Position" ++ [positionKey r]))
    with hrow2
  set s2 := dictSet s1 (joinStrs r.gene_refGene) row2 with hs2
  set row3 := dictSet row2 "Mutation"
    (.strList (listFieldAt s (joinStrs r.gene_refGene) "Mutation" ++ [mutationStr r]))
    with hrow3
  set s3 := dictSet s2 (joinStrs r.gene_refGene) row3 with hs3
  have hbrG : (if joinStrs r.func_refGene ∈ ["UTR3", "UTR5"] then
        countBump s0 (joinStrs r.gene_refGene) (joinStrs r.func_refGene)
      else if joinStrs r.func_refGene = "exonic" then
        countBump s0 (joinStrs r.gene_refGene) (joinStrs r.exonicFunc_refGene)
      else .ok s0) = countBump s0 (joinStrs r.gene_refGene) (functionTag r) := by
    have h3 : joinStrs r.func_refGene = "UTR3" ∨ joinStrs r.func_refGene = "UTR5" ∨
        joinStrs r.func_refGene = "exonic" := by simpa using hret'
    rcases h3 with h | h | h <;> simp [functionTag, h]
  have hrowS1 : dictGet s1 (joinStrs r.gene_refGene) = some row1 := by
    rw [hs1]; exact dictGet_dictSet_self _ _ _
  have hp1 : dictGet row1 "Position" =
      some (.strList (listFieldAt s (joinStrs r.gene_refGene) "Position")) := by
    rw [hrow1, dictGet_dictSet_ne _ _ _ _ hnePos]; exact hp0
  have e1 : rowAppend s1 (joinStrs r.gene_refGene) "Position" (positionKey r) =
      .ok s2 := by
    rw [hs2, hrow2]; exact rowAppend_ok hrowS1 hp1
  have hrowS2 : dictGet s2 (joinStrs r.gene_refGene) = some row2 := by
    rw [hs2]; exact dictGet_dictSet_self _ _ _
  have hm2 : dictGet row2 "Mutation" =
      some (.strList (listFieldAt s (joinStrs r.gene_refGene) "Mutation")) := by
    rw [hrow2, dictGet_dictSet_ne _ _ _ _ (by decide),
      hrow1, dictGet_dictSet_ne _ _ _ _ hneMut]
    exact hm0
  have e2 : rowAppend s2 (joinStrs r.gene_refGene) "Mutation" (mutationStr r) =
      .ok s3 := by
    rw [hs3, hrow3]; exact rowAppend_ok hrowS2 hm2
  have hrowS3 : dictGet s3 (joinStrs r.gene_refGene) = some row3 := by
    rw [hs3]; exact dictGet_dictSet_self _ _ _
  have hsm3 : dictGet row3 "Sample" =
      some (.strList (listFieldAt s (joinStrs r.gene_refGene) "Sample")) := by
    rw [hrow3, dictGet_dictSet_ne _ _ _ _ (by decide),
      hrow2, dictGet_dictSet_ne _ _ _ _ (by decide),
      hrow1, dictGet_dictSet_ne _ _ _ _ hneSam]
    exact hsm0
  have hscc3 : dictGet row3 "SCC_samples_filtered" =
      some (.strList (listFieldAt s (joinStrs r.gene_refGene) "SCC_samples_filtered")) := by
    rw [hrow3, dictGet_dictSet_ne _ _ _ _ (by decide),
      hrow2, dictGet_dictSet_ne _ _ _ _ (by decide),
      hrow1, dictGet_dictSet_ne _ _ _ _ hneScc]
    exact hscc0
  refine ⟨s3, ?_, ?_, ?_, ?_⟩
  · simp only [geneStep]
    rw [if_pos hret']
    simp only [update_gene_entry]
    rw [hs0, hbrG, hbump]
    rw [hs1, hrow1] at e1
    simp only [← hrow1, ← hs1, e1]
    simp only [e2]
    rw [if_pos hbad]
  · simp only [listFieldAt, hrowS3, hsm3]
  · simp only [listFieldAt, hrowS3, hscc3]
  · intro k hk
    rw [hs3, dictGet_dictSet_ne _ _ _ _ hk, hs2, dictGet_dictSet_ne _ _ _ _ hk,
      hs1, dictGet_dictSet_ne _ _ _ _ hk]
    exact hframe0 k hk

/-! ## Claim theorems -/

/-- C1 counterexample: processing a three-sample exonic record against the
empty position summary raises the two-sample error, but the summary state
observed at the exception is NOT the unchanged empty mapping: the record's
entry has been created with its Mutation and Function strings already
appended (only the Sample append was skipped).  This refutes the claim that
the summary mapping is left exactly as it was before the record. -/
theorem c1_counterexample :
    recThreeSamples.samples.length = 3 ∧
    posStep [] recThreeSamples =
      .error ("Annotated VCF has more than 2 samples!",
        [("chr1_100",
          [("Gene", .str "TP53"), ("Mutation", .strList ["A/T"]),
           ("Function", .strList ["nonsynonymous_SNV"]),
           ("Sample", .strList [])])]) := by
  exact ⟨rfl, rfl⟩

/-- C1 (amended): a retained record whose sample count is not two makes
both aggregators raise the two-sample error, which aborts the batch (the
record loop propagates the error).  At the exception no sample pair has
been recorded for the offending record: the Sample (and for gene entries
SCC_samples_filtered) sequences of its key and all other keys are exactly
as before the record was processed.  The mapping is, however, not left
fully unchanged: the record's entry may have been created and its
Mutation/Function (position) or count/Position/Mutation (gene) fields
updated before the check fires. -/
theorem c1_amended_malformed_record_aborts (s_p s_g : Summary) (r : VcfRecord)
    (rest : List VcfRecord)
    (hwfp : PosWF s_p) (hwfg : GeneWF s_g)
    (hbad : r.samples.length ≠ 2) (hret : retained r)
    (htag : functionTag r ∉ geneListKeys) :
    ∃ s₂ s₃,
      posStep s_p r = .error ("Annotated VCF has more than 2 samples!", s₂) ∧
      foldRecords posStep s_p (r :: rest) =
        .error ("Annotated VCF has more than 2 samples!", s₂) ∧
      listFieldAt s₂ (positionKey r) "Sample" =
        listFieldAt s_p (positionKey r) "Sample" ∧
      (∀ k, k ≠ positionKey r → dictGet s₂ k = dictGet s_p k) ∧
      geneStep s_g r = .error ("Annotated VCF has more than 2 samples!", s₃) ∧
      foldRecords geneStep s_g (r :: rest) =
        .error ("Annotated VCF has more than 2 samples!", s₃) ∧
      listFieldAt s₃ (joinStrs r.gene_refGene) "Sample" =
        listFieldAt s_g (joinStrs r.gene_refGene) "Sample" ∧
      listFieldAt s₃ (joinStrs r.gene_refGene) "SCC_samples_filtered" =
        listFieldAt s_g (joinStrs r.gene_refGene) "SCC_samples_filtered" ∧
      (∀ k, k ≠ joinStrs r.gene_refGene → dictGet s₃ k = dictGet s_g k) := by
  obtain ⟨s₂, he, hsm, hfr, _⟩ := posStep_err s_p r hwfp hbad hret
  obtain ⟨s₃, heg, hsmg, hsccg, hfrg⟩ := geneStep_err s_g r hwfg hbad hret htag
  exact ⟨s₂, s₃, he, by simp [foldRecords, he], hsm, hfr,
    heg, by simp [foldRecords, heg], hsmg, hsccg, hfrg⟩

/-- C1 witness: the amended statement instantiated at the empty summaries
and the concrete three-sample record. -/
theorem c1_amended_witness :
    ∃ s₂ s₃,
      posStep [] recThreeSamples =
        .error ("Annotated VCF has more than 2 samples!", s₂) ∧
      foldRecords posStep [] (recThreeSamples :: []) =
        .error ("Annotated VCF has more than 2 samples!", s₂) ∧
      listFieldAt s₂ (positionKey recThreeSamples) "Sample" =
        listFieldAt [] (positionKey recThreeSamples) "Sample" ∧
      (∀ k, k ≠ positionKey recThreeSamples → dictGet s₂ k = dictGet [] k) ∧
      geneStep [] recThreeSamples =
        .error ("Annotated VCF has more than 2 samples!", s₃) ∧
      foldRecords geneStep [] (recThreeSamples :: []) =
        .error ("Annotated VCF has more than 2 samples!", s₃) ∧
      listFieldAt s₃ (joinStrs recThreeSamples.gene_refGene) "Sample" =
        listFieldAt [] (joinStrs recThreeSamples.gene_refGene) "Sample" ∧
      listFieldAt s₃ (joinStrs recThreeSamples.gene_refGene) "SCC_samples_filtered" =
        listFieldAt [] (joinStrs recThreeSamples.gene_refGene) "SCC_samples_filtered" ∧
      (∀ k, k ≠ joinStrs recThreeSamples.gene_refGene →
        dictGet s₃ k = dictGet [] k) :=
  c1_amended_malformed_record_aborts [] [] recThreeSamples []
    (by decide) (by decide) (by decide) (by decide) (by decide)

/-- C6: a record whose variant-class tag is not one of UTR3/UTR5/exonic is
skipped entirely: processing it returns both summaries unchanged (no key
created, no sequence appended, no count incremented). -/
theorem c6_unretained_record_skipped (s_p s_g : Summary) (r : VcfRecord)
    (h : joinStrs r.func_refGene ∉ ["UTR3", "UTR5", "exonic"]) :
    posStep s_p r = .ok s_p ∧ geneStep s_g r = .ok s_g := by
  constructor
  · simp only [posStep]; rw [if_neg h]
  · simp only [geneStep]; rw [if_neg h]

/-- C6 witness: the intronic record leaves the empty summaries unchanged. -/
theorem c6_witness :
    posStep [] recIntronic = .ok [] ∧ geneStep [] recIntronic = .ok [] :=
  c6_unretained_record_skipped [] [] recIntronic (by decide)

/-- C7: updating an existing position entry never changes its Gene cell,
whatever gene symbol the new record carries (first-write-wins), while
exactly the Mutation/Function/Sample sequences grow by one element and all
other keys are untouched. -/
theorem c7_gene_first_write_wins (s : Summary) (r : VcfRecord) (row : Row)
    (hwf : PosWF s) (h2 : r.samples.length = 2) (hret : retained r)
    (hmem : dictGet s (positionKey r) = some row) :
    ∃ s₁, posStep s r = .ok s₁ ∧
      geneFieldAt s₁ (positionKey r) = geneFieldAt s (positionKey r) ∧
      (∀ k, k ≠ positionKey r → dictGet s₁ k = dictGet s k) ∧
      listFieldAt s₁ (positionKey r) "Mutation" =
        listFieldAt s (positionKey r) "Mutation" ++ [mutationStr r] ∧
      listFieldAt s₁ (positionKey r) "Function" =
        listFieldAt s (positionKey r) "Function" ++ [functionTag r] ∧
      listFieldAt s₁ (positionKey r) "Sample" =
        listFieldAt s (positionKey r) "Sample" ++ [samplePairStr r] := by
  obtain ⟨s₁, heq, _, hframe, _, hgene, hm, hf, hsm⟩ := posStep_ok s r hwf h2 hret
  refine ⟨s₁, heq, ?_, hframe, hm, hf, hsm⟩
  rw [hgene, if_pos (by simp [hmem])]

/-- C7 witness: revisiting coordinate chr1_100 with gene EGFR leaves the
recorded gene TP53 in place while the sequences grow. -/
theorem c7_witness :
    ∃ s₁, posStep posSummaryExample recOtherGene = .ok s₁ ∧
      geneFieldAt s₁ (positionKey recOtherGene) =
        geneFieldAt posSummaryExample (positionKey recOtherGene) ∧
      (∀ k, k ≠ positionKey recOtherGene →
        dictGet s₁ k = dictGet posSummaryExample k) ∧
      listFieldAt s₁ (positionKey recOtherGene) "Mutation" =
        listFieldAt posSummaryExample (positionKey recOtherGene) "Mutation" ++
          [mutationStr recOtherGene] ∧
      listFieldAt s₁ (positionKey recOtherGene) "Function" =
        listFieldAt posSummaryExample (positionKey recOtherGene) "Function" ++
          [functionTag recOtherGene] ∧
      listFieldAt s₁ (positionKey recOtherGene) "Sample" =
        listFieldAt posSummaryExample (positionKey recOtherGene) "Sample" ++
          [samplePairStr recOtherGene] :=
  c7_gene_first_write_wins posSummaryExample recOtherGene
    [("Gene", .str "TP53"), ("Mutation", .strList ["A/T"]),
     ("Function", .strList ["nonsynonymous_SNV"]),
     ("Sample", .strList ["TumorA:NormalA"])]
    (by decide) (by decide) (by decide) (by decide)

/-- C10: invoking the table builder on the empty summary mapping fails
with the KeyError raised while selecting the Sample column, for every
summary kind, instead of returning an empty table with headers. -/
theorem c10_build_table_empty_fails (summary_type : String) :
    build_summary_table [] summary_type = .error ("KeyError: Sample") := rfl

/-- The file loop splits over list append: run the first part, and on
success continue with the second from the resulting summary. -/
theorem foldFiles_append (summarizeOne : FileSystem → String → Summary →
      Except ErrSt Summary) (fs : FileSystem) (s : Summary)
    (l₁ l₂ : List String) :
    foldFiles summarizeOne fs s (l₁ ++ l₂) =
      match foldFiles summarizeOne fs s l₁ with
      | .ok s' => foldFiles summarizeOne fs s' l₂
      | .error e => .error e := by
  induction l₁ generalizing s with
  | nil => rfl
  | cons v vs ih =>
    simp only [List.cons_append, foldFiles]
    cases summarizeOne fs v s with
    | ok s' => exact ih s'
    | error e => rfl

/-- C9 counterexample: with a batch listing an existing file before a
missing one, the gene run raises FileNotFoundError only when the missing
file's turn comes, and the summary observed at the failure already holds
the TP53 entry folded from the first file — refuting "no record from any
file is folded into a summary before the failure surfaces". -/
theorem c9_counterexample :
    openVcf fsExample "missing.vcf" = none ∧
    summarize_by_gene fsExample ["a.vcf", "missing.vcf"] =
      .error ("FileNotFoundError: missing.vcf", geneSummaryExample) ∧
    (dictGet geneSummaryExample "TP53").isSome = true := ⟨rfl, rfl, rfl⟩

/-- C9 (amended): a missing input file makes the gene batch fail with
FileNotFoundError at the moment that file is first opened; every file
listed before it has already been aggregated (the error surfaces with
exactly the summary accumulated from the earlier files) and no record of
the missing file or of any later file is folded. -/
theorem c9_amended_missing_file_fails_lazily (fs : FileSystem)
    (pre post : List String) (v : String) (s : Summary)
    (hok : summarize_by_gene fs pre = .ok s)
    (hmiss : openVcf fs v = none) :
    summarize_by_gene fs (pre ++ v :: post) =
      .error ("FileNotFoundError: " ++ v, s) := by
  unfold summarize_by_gene at hok ⊢
  rw [foldFiles_append, hok]
  simp only [foldFiles, summarize_vcf_by_gene, hmiss]

/-- C9 witness: the amended statement at the concrete two-file batch. -/
theorem c9_witness :
    summarize_by_gene fsExample (["a.vcf"] ++ "missing.vcf" :: []) =
      .error ("FileNotFoundError: " ++ "missing.vcf", geneSummaryExample) :=
  c9_amended_missing_file_fails_lazily fsExample ["a.vcf"] [] "missing.vcf"
    geneSummaryExample rfl rfl

/-! ## The gene well-formedness invariant through the pipeline -/

theorem geneRowWF_mk {row : Row}
    (h1 : ∀ f ∈ geneListKeys, isStrListO (dictGet row f) = true)
    (h2 : ∀ p ∈ row, p.1 ∉ geneListKeys → isNatCell p.2 = true) : GeneRowWF row :=
  ⟨h1 _ (by decide), h1 _ (by decide), h1 _ (by decide), h1 _ (by decide), h2⟩

theorem geneRowWF_dictSet_nat {row : Row} {k : String} {n : Nat}
    (hwfrow : GeneRowWF row) (hk : k ∉ geneListKeys) :
    GeneRowWF (dictSet row k (.nat n)) := by
  refine geneRowWF_mk ?_ ?_
  · intro f hf
    have hfk : f ≠ k := fun hc => hk (hc ▸ hf)
    rw [dictGet_dictSet_ne _ _ _ _ hfk]
    exact geneRowWF_listKey hwfrow hf
  · intro p hp hpk
    rcases mem_dictSet hp with h | h
    · exact hwfrow.2.2.2.2 p h hpk
    · rw [h]; rfl

theorem geneRowWF_dictSet_listKey {row : Row} {f : String} {l : List String}
    (hwfrow : GeneRowWF row) (hf : f ∈ geneListKeys) :
    GeneRowWF (dictSet row f (.strList l)) := by
  refine geneRowWF_mk ?_ ?_
  · intro f' hf'
    by_cases hff : f' = f
    · subst hff; rw [dictGet_dictSet_self]; rfl
    · rw [dictGet_dictSet_ne _ _ _ _ hff]
      exact geneRowWF_listKey hwfrow hf'
  · intro p hp hpk
    rcases mem_dictSet hp with h | h
    · exact hwfrow.2.2.2.2 p h hpk
    · rw [h] at hpk; exact absurd hf hpk

theorem countBump_wf {s s' : Summary} {g k : String}
    (h : countBump s g k = .ok s') (hwf : GeneWF s) : GeneWF s' := by
  unfold countBump at h
  cases hrow : dictGet s g with
  | none => rw [hrow] at h; simp at h
  | some row =>
    rw [hrow] at h
    simp only [] at h
    have hwfrow := geneRowWF_of_dictGet hwf hrow
    cases hcell : dictGet row k with
    | none =>
      rw [hcell] at h
      simp only [Except.ok.injEq] at h
      subst h
      have hk : k ∉ geneListKeys := by
        intro hk
        have := geneRowWF_listKey hwfrow hk
        rw [hcell] at this
        simp [isStrListO] at this
      exact geneWF_dictSet hwf (geneRowWF_dictSet_nat hwfrow hk)
    | some v =>
      cases v <;> rw [hcell] at h
      case nat n =>
        simp only [Except.ok.injEq] at h
        subst h
        have hk : k ∉ geneListKeys := by
          intro hk
          have := geneRowWF_listKey hwfrow hk
          rw [hcell] at this
          simp [isStrListO] at this
        exact geneWF_dictSet hwf (geneRowWF_dictSet_nat hwfrow hk)
      all_goals simp at h

theorem rowAppend_geneWF {s s' : Summary} {g f x : String}
    (h : rowAppend s g f x = .ok s') (hf : f ∈ geneListKeys) (hwf : GeneWF s) :
    GeneWF s' := by
  unfold rowAppend at h
  cases hrow : dictGet s g with
  | none => rw [hrow] at h; simp at h
  | some row =>
    rw [hrow] at h
    simp only [] at h
    cases hcell : dictGet row f with
    | none => rw [hcell] at h; simp at h
    | some v =>
      cases v <;> rw [hcell] at h
      case strList l =>
        simp only [Except.ok.injEq] at h
        subst h
        exact geneWF_dictSet hwf
          (geneRowWF_dictSet_listKey (geneRowWF_of_dictGet hwf hrow) hf)
      all_goals simp at h

theorem update_gene_entry_wf {s s' : Summary} {r : VcfRecord} {g vt : String}
    (h : update_gene_entry s r g vt = .ok s') (hwf : GeneWF s) : GeneWF s' := by
  unfold update_gene_entry at h
  set s0 := (if (dictGet s g).isNone then
      dictSet s g
        (dictSet (dictSet (dictSet (dictSet ([] : Row)
          "Position" (.strList []))
          "Mutation" (.strList []))
          "Sample" (.strList []))
          "SCC_samples_filtered" (.strList []))
    else s) with hs0
  simp only [] at h
  have hwf0 : GeneWF s0 := by
    rw [hs0]
    split
    · exact geneWF_dictSet hwf (by decide)
    · exact hwf
  cases hbump : (if vt ∈ ["UTR3", "UTR5"] then countBump s0 g vt
      else if vt = "exonic" then
        countBump s0 g (joinStrs r.exonicFunc_refGene)
      else .ok s0) with
  | error e => rw [hbump] at h; simp at h
  | ok s1 =>
    rw [hbump] at h
    simp only [] at h
    have hwf1 : GeneWF s1 := by
      split at hbump
      · exact countBump_wf hbump hwf0
      · split at hbump
        · exact countBump_wf hbump hwf0
        · cases hbump; exact hwf0
    cases hP : rowAppend s1 g "Position" (positionKey r) with
    | error e => rw [hP] at h; simp at h
    | ok s2 =>
      rw [hP] at h
      simp only [] at h
      have hwf2 : GeneWF s2 := rowAppend_geneWF hP (by decide) hwf1
      cases hM : rowAppend s2 g "Mutation" (mutationStr r) with
      | error e => rw [hM] at h; simp at h
      | ok s3 =>
        rw [hM] at h
        simp only [] at h
        have hwf3 : GeneWF s3 := rowAppend_geneWF hM (by decide) hwf2
        split at h
        · simp at h
        · cases hS : rowAppend s3 g "Sample" (samplePairStr r) with
          | error e => rw [hS] at h; simp at h
          | ok s4 =>
            rw [hS] at h
            simp only [] at h
            have hwf4 : GeneWF s4 := rowAppend_geneWF hS (by decide) hwf3
            split at h
            · exact rowAppend_geneWF h (by decide) hwf4
            · simp only [Except.ok.injEq] at h
              subst h; exact hwf4

theorem geneStep_wf {s s' : Summary} {r : VcfRecord}
    (h : geneStep s r = .ok s') (hwf : GeneWF s) : GeneWF s' := by
  unfold geneStep at h
  simp only [] at h
  split at h
  · exact update_gene_entry_wf h hwf
  · simp only [Except.ok.injEq] at h; subst h; exact hwf

theorem foldRecords_geneWF {rs : List VcfRecord} {s s' : Summary}
    (h : foldRecords geneStep s rs = .ok s') (hwf : GeneWF s) : GeneWF s' := by
  induction rs generalizing s with
  | nil => simp only [foldRecords, Except.ok.injEq] at h; subst h; exact hwf
  | cons r rs ih =>
    simp only [foldRecords] at h
    cases hstep : geneStep s r with
    | error e => rw [hstep] at h; simp at h
    | ok s1 =>
      rw [hstep] at h
      exact ih h (geneStep_wf hstep hwf)

/-! ## The backfill pass -/

theorem backfill_foldl_get (es : List String) (row : Row) (k : String) :
    dictGet (es.foldl (fun row entry =>
      if (dictGet row entry).isNone then dictSet row entry (.nat 0) else row)
      row) k =
      if (dictGet row k).isSome = true then dictGet row k
      else if k ∈ es then some (.nat 0) else none := by
  induction es generalizing row with
  | nil =>
    cases h : dictGet row k <;> simp [h]
  | cons e es ih =>
    rw [List.foldl_cons, ih]
    by_cases he : (dictGet row e).isNone = true
    · rw [if_pos he]
      by_cases hk : k = e
      · subst hk
        rw [dictGet_dictSet_self]
        have hnone : dictGet row k = none := by
          cases h : dictGet row k
          · rfl
          · rw [h] at he; simp at he
        simp [hnone]
      · rw [dictGet_dictSet_ne _ _ _ _ hk]
        by_cases hp : (dictGet row k).isSome = true <;>
          simp [hp, hk, List.mem_cons]
    · rw [if_neg he]
      by_cases hk : k = e
      · subst hk
        have hsome : (dictGet row k).isSome = true := by
          cases h : dictGet row k
          · rw [h] at he; simp at he
          · rfl
        simp [hsome]
      · by_cases hp : (dictGet row k).isSome = true <;>
          simp [hp, hk, List.mem_cons]

theorem backfillRow_get (row : Row) (k : String) :
    dictGet (backfillRow row) k =
      if (dictGet row k).isSome = true then dictGet row k
      else if k ∈ required_entries then some (.nat 0) else none := by
  unfold backfillRow
  exact backfill_foldl_get required_entries row k

theorem mem_backfill_foldl {es : List String} {row : Row} {p : String × CellVal}
    (h : p ∈ es.foldl (fun row entry =>
      if (dictGet row entry).isNone then dictSet row entry (.nat 0) else row)
      row) : p ∈ row ∨ p.2 = .nat 0 := by
  induction es generalizing row with
  | nil => exact .inl h
  | cons e es ih =>
    rw [List.foldl_cons] at h
    rcases ih h with h' | h'
    · by_cases he : (dictGet row e).isNone = true
      · rw [if_pos he] at h'
        rcases mem_dictSet h' with h'' | h''
        · exact .inl h''
        · right; rw [h'']
      · rw [if_neg he] at h'
        exact .inl h'
    · exact .inr h'

theorem geneRowWF_backfill {row : Row} (h : GeneRowWF row) :
    GeneRowWF (backfillRow row) := by
  refine geneRowWF_mk ?_ ?_
  · intro f hf
    rw [backfillRow_get]
    obtain ⟨l, hl⟩ := (isStrListO_iff _).1 (geneRowWF_listKey h hf)
    rw [hl]
    simp [isStrListO]
  · intro p hp hpk
    rcases mem_backfill_foldl hp with h' | h'
    · exact h.2.2.2.2 p h' hpk
    · rw [h']; rfl

theorem geneWF_add_missing {s : Summary} (h : GeneWF s) :
    GeneWF (add_missing_gene_entries s) := by
  intro p hp
  unfold add_missing_gene_entries at hp
  obtain ⟨⟨a, b⟩, hq, hqp⟩ := List.mem_map.1 hp
  subst hqp
  dsimp only
  exact geneRowWF_backfill (h (a, b) hq)

/-- Every required vocabulary key is distinct from the four sequence keys. -/
theorem required_entries_not_listKey :
    ∀ k ∈ required_entries, k ∉ geneListKeys := by decide

theorem countsPresent_add_missing {s : Summary} (h : GeneWF s) :
    CountsPresent (add_missing_gene_entries s) := by
  intro g row hrow k hk
  unfold add_missing_gene_entries at hrow
  rw [dictGet_map_snd] at hrow
  cases hsg : dictGet s g with
  | none => rw [hsg] at hrow; simp at hrow
  | some row0 =>
    rw [hsg] at hrow
    injection hrow with hrow
    subst hrow
    rw [backfillRow_get]
    by_cases hp : (dictGet row0 k).isSome = true
    · obtain ⟨v, hv⟩ : ∃ v, dictGet row0 k = some v := by
        cases hvv : dictGet row0 k
        · rw [hvv] at hp; simp at hp
        · exact ⟨_, rfl⟩
      obtain ⟨n, hn⟩ := (isNatCell_iff v).1
        (geneRowWF_natKey (h _ (mem_of_dictGet hsg)) hv
          (required_entries_not_listKey k hk))
      rw [if_pos hp, hv, hn]
      exact ⟨n, rfl⟩
    · rw [if_neg hp, if_pos hk]
      exact ⟨0, rfl⟩

theorem summarize_vcf_by_gene_wf {fs : FileSystem} {v : String} {s s' : Summary}
    (h : summarize_vcf_by_gene fs v s = .ok s') (hwf : GeneWF s) :
    GeneWF s' ∧ CountsPresent s' := by
  unfold summarize_vcf_by_gene at h
  cases hopen : openVcf fs v with
  | none => rw [hopen] at h; simp at h
  | some records =>
    rw [hopen] at h
    simp only [] at h
    cases hfold : foldRecords geneStep s records with
    | error e => rw [hfold] at h; simp at h
    | ok t =>
      rw [hfold] at h
      simp only [Except.ok.injEq] at h
      subst h
      have hwt := foldRecords_geneWF hfold hwf
      exact ⟨geneWF_add_missing hwt, countsPresent_add_missing hwt⟩

theorem foldFiles_gene_counts {vcfs : List String} {fs : FileSystem}
    {s s' : Summary}
    (h : foldFiles summarize_vcf_by_gene fs s vcfs = .ok s')
    (hwf : GeneWF s) : GeneWF s' ∧ (CountsPresent s' ∨ s' = s) := by
  induction vcfs generalizing s with
  | nil =>
    simp only [foldFiles, Except.ok.injEq] at h
    subst h
    exact ⟨hwf, .inr rfl⟩
  | cons v vs ih =>
    simp only [foldFiles] at h
    cases hone : summarize_vcf_by_gene fs v s with
    | error e => rw [hone] at h; simp at h
    | ok s1 =>
      rw [hone] at h
      obtain ⟨hw1, hp1⟩ := summarize_vcf_by_gene_wf hone hwf
      obtain ⟨hw', hp'⟩ := ih h hw1
      refine ⟨hw', ?_⟩
      rcases hp' with hp' | rfl
      · exact .inl hp'
      · exact .inl hp1

/-- C3: after gene aggregation completes, every gene entry maps each of
the 12 fixed vocabulary keys to a present integer; and the finishing pass
back-fills any key absent for a gene (i.e. never incremented) to 0 while
keeping present values. -/
theorem c3_gene_entries_have_all_vocabulary_keys (fs : FileSystem)
    (vcfs : List String) (s : Summary)
    (hok : summarize_by_gene fs vcfs = .ok s) :
    (∀ g row, dictGet s g = some row → ∀ k ∈ required_entries,
      ∃ n : Nat, dictGet row k = some (.nat n)) ∧
    (∀ s₀ g row, dictGet s₀ g = some row → ∀ k ∈ required_entries,
      dictGet row k = none →
      ∃ row', dictGet (add_missing_gene_entries s₀) g = some row' ∧
        dictGet row' k = some (.nat 0)) := by
  constructor
  · intro g row hrow k hk
    unfold summarize_by_gene at hok
    obtain ⟨hw, hp⟩ := foldFiles_gene_counts hok (fun p hp => absurd hp (List.not_mem_nil p))
    rcases hp with hp | rfl
    · exact hp g row hrow k hk
    · simp [dictGet] at hrow
  · intro s₀ g row hrow k hk hnone
    refine ⟨backfillRow row, ?_, ?_⟩
    · unfold add_missing_gene_entries
      rw [dictGet_map_snd, hrow]
      rfl
    · rw [backfillRow_get, hnone]
      simp [hk]

/-- C3 witness: the pipeline statement at the one-file batch. -/
theorem c3_witness :
    (∀ g row, dictGet geneSummaryExample g = some row → ∀ k ∈ required_entries,
      ∃ n : Nat, dictGet row k = some (.nat n)) ∧
    (∀ s₀ g row, dictGet s₀ g = some row → ∀ k ∈ required_entries,
      dictGet row k = none →
      ∃ row', dictGet (add_missing_gene_entries s₀) g = some row' ∧
        dictGet row' k = some (.nat 0)) :=
  c3_gene_entries_have_all_vocabulary_keys fsExample ["a.vcf"]
    geneSummaryExample rfl

/-! ## Lemmas about the DataFrame model -/

theorem from_dict_cols (d : Summary) :
    (DataFrame.from_dict d).cols = unionCols d := rfl

theorem from_dict_rows (d : Summary) :
    (DataFrame.from_dict d).rows =
      d.map (fun p =>
        (p.1, (unionCols d).map (fun c => (c, (dictGet p.2 c).getD .nan)))) := rfl

theorem dfGetCol_ok {df : DataFrame} {c : String} {col : Series}
    (h : dfGetCol df c = .ok col) :
    c ∈ df.cols ∧
      col = df.rows.map (fun r => (r.1, (dictGet r.2 c).getD .nan)) := by
  unfold dfGetCol at h
  split at h
  · simp only [Except.ok.injEq] at h
    exact ⟨by assumption, h.symm⟩
  · simp at h

/-- A key stored in some entry contributes its name to the column union. -/
theorem unionCols_mem {s : Summary} {g c : String} {row : Row} {v : CellVal}
    (hg : dictGet s g = some row) (hc : dictGet row c = some v) :
    c ∈ unionCols s := by
  unfold unionCols
  rw [List.mem_dedup]
  refine List.mem_flatten.2 ⟨row.map Prod.fst, ?_, ?_⟩
  · exact List.mem_map.2 ⟨(g, row), mem_of_dictGet hg, rfl⟩
  · exact List.mem_map.2 ⟨(c, v), mem_of_dictGet hc, rfl⟩

theorem mem_dfSetCol_cols {df : DataFrame} {c c' : String} {vals : Series}
    (h : c ∈ (dfSetCol df c' vals).cols) : c ∈ df.cols ∨ c = c' := by
  unfold dfSetCol at h
  dsimp only at h
  split at h
  · exact .inl h
  · rcases List.mem_append.1 h with h | h
    · exact .inl h
    · right; simpa using h

theorem seriesSetLen_keys {xs ys : Series} (h : seriesSetLen xs = .ok ys) :
    ys.map Prod.fst = xs.map Prod.fst := by
  induction xs generalizing ys with
  | nil =>
    simp only [seriesSetLen, Except.ok.injEq] at h
    subst h; rfl
  | cons p ps ih =>
    simp only [seriesSetLen] at h
    cases hv : applySetLen p.2 with
    | error e => rw [hv] at h; simp at h
    | ok v =>
      rw [hv] at h
      cases hrest : seriesSetLen ps with
      | error e => rw [hrest] at h; simp at h
      | ok vs =>
        rw [hrest] at h
        simp only [Except.ok.injEq] at h
        subst h
        simp [ih hrest]

theorem seriesSetLen_get {xs ys : Series} (h : seriesSetLen xs = .ok ys)
    {k : String} {v : CellVal} (hv : dictGet xs k = some v) :
    ∃ w, dictGet ys k = some w ∧ applySetLen v = .ok w := by
  induction xs generalizing ys with
  | nil => simp [dictGet] at hv
  | cons p ps ih =>
    simp only [seriesSetLen] at h
    cases hvp : applySetLen p.2 with
    | error e => rw [hvp] at h; simp at h
    | ok w =>
      rw [hvp] at h
      cases hrest : seriesSetLen ps with
      | error e => rw [hrest] at h; simp at h
      | ok vs =>
        rw [hrest] at h
        simp only [Except.ok.injEq] at h
        subst h
        rw [dictGet_cons] at hv
        by_cases hk : p.1 = k
        · rw [if_pos hk] at hv
          injection hv with hv
          subst hv
          exact ⟨w, by rw [dictGet_cons, if_pos hk], hvp⟩
        · rw [if_neg hk] at hv
          obtain ⟨w', hw', he⟩ := ih hrest hv
          exact ⟨w', by rw [dictGet_cons, if_neg hk]; exact hw', he⟩

theorem seriesSetLen_ok_of {xs : Series}
    (h : ∀ p ∈ xs, ∃ w, applySetLen p.2 = .ok w) :
    ∃ ys, seriesSetLen xs = .ok ys := by
  induction xs with
  | nil => exact ⟨[], rfl⟩
  | cons p ps ih =>
    obtain ⟨w, hw⟩ := h p (List.mem_cons_self p ps)
    obtain ⟨ys, hys⟩ := ih (fun q hq => h q (List.mem_cons_of_mem p hq))
    exact ⟨(p.1, w) :: ys, by simp only [seriesSetLen, hw, hys]⟩

theorem seriesDiv_keys {xs ys zs : Series} (h : seriesDiv xs ys = .ok zs)
    (hkeys : xs.map Prod.fst = ys.map Prod.fst) :
    zs.map Prod.fst = xs.map Prod.fst := by
  induction xs generalizing ys zs with
  | nil =>
    simp only [seriesDiv, Except.ok.injEq] at h
    subst h; rfl
  | cons p ps ih =>
    cases ys with
    | nil => simp at hkeys
    | cons q qs =>
      simp only [List.map_cons, List.cons.injEq] at hkeys
      simp only [seriesDiv] at h
      cases hv : cellDiv p.2 q.2 with
      | error e => rw [hv] at h; simp at h
      | ok v =>
        rw [hv] at h
        cases hrest : seriesDiv ps qs with
        | error e => rw [hrest] at h; simp at h
        | ok vs =>
          rw [hrest] at h
          simp only [Except.ok.injEq] at h
          subst h
          simp [ih hrest hkeys.2]

theorem seriesDiv_get {xs ys zs : Series} (h : seriesDiv xs ys = .ok zs)
    (hkeys : xs.map Prod.fst = ys.map Prod.fst)
    {k : String} {va vb : CellVal}
    (ha : dictGet xs k = some va) (hb : dictGet ys k = some vb) :
    ∃ w, dictGet zs k = some w ∧ cellDiv va vb = .ok w := by
  induction xs generalizing ys zs with
  | nil => simp [dictGet] at ha
  | cons p ps ih =>
    cases ys with
    | nil => simp at hkeys
    | cons q qs =>
      simp only [List.map_cons, List.cons.injEq] at hkeys
      obtain ⟨hpq, hkeys'⟩ := hkeys
      simp only [seriesDiv] at h
      cases hc : cellDiv p.2 q.2 with
      | error e => rw [hc] at h; simp at h
      | ok v =>
        rw [hc] at h
        cases hrest : seriesDiv ps qs with
        | error e => rw [hrest] at h; simp at h
        | ok vs =>
          rw [hrest] at h
          simp only [Except.ok.injEq] at h
          subst h
          rw [dictGet_cons] at ha
          rw [dictGet_cons] at hb
          by_cases hk : p.1 = k
          · rw [if_pos hk] at ha
            rw [if_pos (hpq ▸ hk)] at hb
            injection ha with ha
            injection hb with hb
            subst ha; subst hb
            exact ⟨v, by rw [dictGet_cons, if_pos hk], hc⟩
          · rw [if_neg hk] at ha
            rw [if_neg (hpq ▸ hk)] at hb
            obtain ⟨w, hw, he⟩ := ih hrest hkeys' ha hb
            exact ⟨w, by rw [dictGet_cons, if_neg hk]; exact hw, he⟩

theorem seriesDiv_ok_of {xs ys : Series}
    (h : ∀ p ∈ xs, ∀ q ∈ ys, ∃ w, cellDiv p.2 q.2 = .ok w) :
    ∃ zs, seriesDiv xs ys = .ok zs := by
  induction xs generalizing ys with
  | nil => exact ⟨[], rfl⟩
  | cons p ps ih =>
    cases ys with
    | nil => exact ⟨[], rfl⟩
    | cons q qs =>
      obtain ⟨w, hw⟩ := h p (List.mem_cons_self p ps) q (List.mem_cons_self q qs)
      obtain ⟨zs, hzs⟩ := ih (fun p' hp' q' hq' =>
        h p' (List.mem_cons_of_mem p hp') q' (List.mem_cons_of_mem q hq'))
      exact ⟨(p.1, w) :: zs, by simp only [seriesDiv, hw, hzs]⟩

theorem dictGet_zipSet {α β : Type} {l : List (String × α)} {m : List (String × β)}
    (G : α → β → α) (hkeys : l.map Prod.fst = m.map Prod.fst) {k : String} {v : α}
    (hv : dictGet l k = some v) :
    ∃ w, dictGet m k = some w ∧
      dictGet ((l.zip m).map (fun rv => (rv.1.1, G rv.1.2 rv.2.2))) k =
        some (G v w) := by
  induction l generalizing m with
  | nil => simp [dictGet] at hv
  | cons p ps ih =>
    cases m with
    | nil => simp at hkeys
    | cons q qs =>
      simp only [List.map_cons, List.cons.injEq] at hkeys
      obtain ⟨hpq, hkeys'⟩ := hkeys
      rw [dictGet_cons] at hv
      by_cases hk : p.1 = k
      · rw [if_pos hk] at hv
        injection hv with hv
        subst hv
        refine ⟨q.2, by rw [dictGet_cons, if_pos (hpq ▸ hk)], ?_⟩
        rw [List.zip_cons_cons, List.map_cons, dictGet_cons, if_pos hk]
      · rw [if_neg hk] at hv
        obtain ⟨w, hw, hres⟩ := ih hkeys' hv
        refine ⟨w, by rw [dictGet_cons, if_neg (hpq ▸ hk)]; exact hw, ?_⟩
        rw [List.zip_cons_cons, List.map_cons, dictGet_cons, if_neg hk]
        exact hres

theorem zipSet_keys {α β : Type} {l : List (String × α)} {m : List (String × β)}
    (G : α → β → α) (hkeys : l.map Prod.fst = m.map Prod.fst) :
    ((l.zip m).map (fun rv => (rv.1.1, G rv.1.2 rv.2.2))).map Prod.fst =
      l.map Prod.fst := by
  induction l generalizing m with
  | nil => rfl
  | cons p ps ih =>
    cases m with
    | nil => simp at hkeys
    | cons q qs =>
      simp only [List.map_cons, List.cons.injEq] at hkeys
      rw [List.zip_cons_cons, List.map_cons, List.map_cons]
      simp only [List.map_cons]
      rw [ih hkeys.2]

theorem dictGet_map_fill (d : Summary) (cols : List String) (k : String) :
    dictGet (d.map (fun p =>
      (p.1, cols.map (fun c => (c, (dictGet p.2 c).getD CellVal.nan))))) k =
      (dictGet d k).map (fun row =>
        cols.map (fun c => (c, (dictGet row c).getD CellVal.nan))) := by
  induction d with
  | nil => rfl
  | cons p t ih => by_cases hpk : p.1 = k <;> simp [dictGet_cons, hpk, ih]

theorem dictGet_map_col (rows : List (String × Row)) (c : String) (k : String) :
    dictGet (rows.map (fun r => (r.1, (dictGet r.2 c).getD CellVal.nan))) k =
      (dictGet rows k).map (fun row => (dictGet row c).getD CellVal.nan) := by
  induction rows with
  | nil => rfl
  | cons p t ih => by_cases hpk : p.1 = k <;> simp [dictGet_cons, hpk, ih]

/-- The fill of one summary entry into a complete table row. -/
theorem dictGet_fill {s : Summary} {row : Row} {c : String}
    (hmem : c ∈ unionCols s) :
    dictGet ((unionCols s).map (fun c₀ => (c₀, (dictGet row c₀).getD .nan))) c =
      some ((dictGet row c).getD .nan) := by
  rw [dictGet_tabulate, if_pos hmem]

/-- Characterization of one row of a successfully built coordinate table:
the entry's columns filled over the union, plus the NumberOfSCCs cell
obtained from set/len on the Sample cell; index label Coordinate. -/
theorem buildCoord_row {s : Summary} {df : DataFrame}
    (hok : build_summary_table s "coordinate" = .ok df)
    {g : String} {row : Row} (hg : dictGet s g = some row) :
    ∃ w, applySetLen ((dictGet row "Sample").getD .nan) = .ok w ∧
      dictGet df.rows g = some (dictSet
        ((unionCols s).map (fun c => (c, (dictGet row c).getD .nan)))
        "NumberOfSCCs" w) ∧
      df.indexName = some "Coordinate" := by
  unfold build_summary_table at hok
  simp only [] at hok
  cases hSC : dfGetCol (DataFrame.from_dict s) "Sample" with
  | error e => rw [hSC] at hok; simp at hok
  | ok sampleCol =>
    rw [hSC] at hok
    try simp only [] at hok
    cases hSL : seriesSetLen sampleCol with
    | error e => rw [hSL] at hok; simp at hok
    | ok numSCCs =>
      rw [hSL] at hok
      try simp only [] at hok
      try rw [if_neg (show ¬("coordinate" = "gene") by decide)] at hok
      try simp only [if_true, if_false] at hok
      injection hok with hok
      subst hok
      obtain ⟨hmemS, hSCval⟩ := dfGetCol_ok hSC
      rw [from_dict_cols] at hmemS
      have h0 : dictGet (DataFrame.from_dict s).rows g =
          some ((unionCols s).map (fun c => (c, (dictGet row c).getD .nan))) := by
        rw [from_dict_rows, dictGet_map_fill, hg]; rfl
      have h1 : dictGet sampleCol g = some ((dictGet row "Sample").getD .nan) := by
        rw [hSCval, dictGet_map_col, h0]
        simp [dictGet_fill hmemS]
      obtain ⟨w, hw, hwe⟩ := seriesSetLen_get hSL h1
      have hkeys1 : (DataFrame.from_dict s).rows.map Prod.fst =
          numSCCs.map Prod.fst := by
        rw [seriesSetLen_keys hSL, hSCval, List.map_map]
        rfl
      obtain ⟨w', hw', hres⟩ :=
        dictGet_zipSet (fun a b => dictSet a "NumberOfSCCs" b) hkeys1 h0
      rw [hw] at hw'
      injection hw' with hw'
      subst hw'
      exact ⟨w, hwe, hres, rfl⟩

/-- Characterization of one row of a successfully built gene table: the
filled entry columns, then NumberOfSCCs from the Sample cell, the Non/Syn
cell from dividing the two counts, and NumberOfSCCs_filtered from the
SCC_samples_filtered cell; index label Gene. -/
theorem buildGene_row {s : Summary} {df : DataFrame}
    (hok : build_summary_table s "gene" = .ok df)
    {g : String} {row : Row} (hg : dictGet s g = some row) :
    ∃ w₁ wd w₃,
      applySetLen ((dictGet row "Sample").getD .nan) = .ok w₁ ∧
      cellDiv ((dictGet row "nonsynonymous_SNV").getD .nan)
        ((dictGet row "synonymous_SNV").getD .nan) = .ok wd ∧
      applySetLen ((dictGet row "SCC_samples_filtered").getD .nan) = .ok w₃ ∧
      dictGet df.rows g = some (dictSet (dictSet (dictSet
        ((unionCols s).map (fun c => (c, (dictGet row c).getD .nan)))
        "NumberOfSCCs" w₁) "Non/Syn" wd) "NumberOfSCCs_filtered" w₃) ∧
      df.indexName = some "Gene" := by
  unfold build_summary_table at hok
  simp only [] at hok
  cases hSC : dfGetCol (DataFrame.from_dict s) "Sample" with
  | error e => rw [hSC] at hok; simp at hok
  | ok sampleCol =>
    rw [hSC] at hok
    try simp only [] at hok
    cases hSL : seriesSetLen sampleCol with
    | error e => rw [hSL] at hok; simp at hok
    | ok numSCCs =>
      rw [hSL] at hok
      try simp only [] at hok
      try simp only [if_true, if_false] at hok
      cases hNS : dfGetCol (dfSetCol (DataFrame.from_dict s) "NumberOfSCCs" numSCCs)
          "nonsynonymous_SNV" with
      | error e => rw [hNS] at hok; simp at hok
      | ok nonsyn =>
      rw [hNS] at hok
      try simp only [] at hok
      cases hSY : dfGetCol (dfSetCol (DataFrame.from_dict s) "NumberOfSCCs" numSCCs)
          "synonymous_SNV" with
      | error e => rw [hSY] at hok; simp at hok
      | ok syn =>
      rw [hSY] at hok
      try simp only [] at hok
      cases hDV : seriesDiv nonsyn syn with
      | error e => rw [hDV] at hok; simp at hok
      | ok ratio =>
      rw [hDV] at hok
      try simp only [] at hok
      cases hSCC : dfGetCol (dfSetCol (dfSetCol (DataFrame.from_dict s)
          "NumberOfSCCs" numSCCs) "Non/Syn" ratio) "SCC_samples_filtered" with
      | error e => rw [hSCC] at hok; simp at hok
      | ok sccCol =>
      rw [hSCC] at hok
      try simp only [] at hok
      cases hSL2 : seriesSetLen sccCol with
      | error e => rw [hSL2] at hok; simp at hok
      | ok numFiltered =>
      rw [hSL2] at hok
      simp only [Except.ok.injEq] at hok
      subst hok
      -- facts about stage 0
      obtain ⟨hmemS, hSCval⟩ := dfGetCol_ok hSC
      rw [from_dict_cols] at hmemS
      have h0 : dictGet (DataFrame.from_dict s).rows g =
          some ((unionCols s).map (fun c => (c, (dictGet row c).getD .nan))) := by
        rw [from_dict_rows, dictGet_map_fill, hg]; rfl
      have h1 : dictGet sampleCol g = some ((dictGet row "Sample").getD .nan) := by
        rw [hSCval, dictGet_map_col, h0]
        simp [dictGet_fill hmemS]
      obtain ⟨w₁, hw₁, hwe₁⟩ := seriesSetLen_get hSL h1
      have hkeys1 : (DataFrame.from_dict s).rows.map Prod.fst =
          numSCCs.map Prod.fst := by
        rw [seriesSetLen_keys hSL, hSCval, List.map_map]
        rfl
      obtain ⟨w₁', hw₁', hres1⟩ :=
        dictGet_zipSet (fun a b => dictSet a "NumberOfSCCs" b) hkeys1 h0
      rw [hw₁] at hw₁'
      injection hw₁' with hw₁'
      subst hw₁'
      -- stage 1 row
      have hrows1 : dictGet (dfSetCol (DataFrame.from_dict s)
          "NumberOfSCCs" numSCCs).rows g = some (dictSet
            ((unionCols s).map (fun c => (c, (dictGet row c).getD .nan)))
            "NumberOfSCCs" w₁) := hres1
      -- count cells of the stage-1 row
      obtain ⟨hmemNS, hNSval⟩ := dfGetCol_ok hNS
      obtain ⟨hmemSY, hSYval⟩ := dfGetCol_ok hSY
      have hmemNS' : "nonsynonymous_SNV" ∈ unionCols s := by
        rcases mem_dfSetCol_cols hmemNS with h | h
        · rwa [from_dict_cols] at h
        · exact absurd h (by decide)
      have hmemSY' : "synonymous_SNV" ∈ unionCols s := by
        rcases mem_dfSetCol_cols hmemSY with h | h
        · rwa [from_dict_cols] at h
        · exact absurd h (by decide)
      have hrow1NS : dictGet (dictSet
          ((unionCols s).map (fun c => (c, (dictGet row c).getD .nan)))
          "NumberOfSCCs" w₁) "nonsynonymous_SNV" =
          some ((dictGet row "nonsynonymous_SNV").getD .nan) := by
        rw [dictGet_dictSet_ne _ _ _ _ (by decide)]
        exact dictGet_fill hmemNS'
      have hrow1SY : dictGet (dictSet
          ((unionCols s).map (fun c => (c, (dictGet row c).getD .nan)))
          "NumberOfSCCs" w₁) "synonymous_SNV" =
          some ((dictGet row "synonymous_SNV").getD .nan) := by
        rw [dictGet_dictSet_ne _ _ _ _ (by decide)]
        exact dictGet_fill hmemSY'
      have hNSg : dictGet nonsyn g =
          some ((dictGet row "nonsynonymous_SNV").getD .nan) := by
        rw [hNSval, dictGet_map_col, hrows1]
        simp [hrow1NS]
      have hSYg : dictGet syn g =
          some ((dictGet row "synonymous_SNV").getD .nan) := by
        rw [hSYval, dictGet_map_col, hrows1]
        simp [hrow1SY]
      have hkeysNSY : nonsyn.map Prod.fst = syn.map Prod.fst := by
        rw [hNSval, hSYval, List.map_map, List.map_map]
        rfl
      obtain ⟨wd, hwd, hwde⟩ := seriesDiv_get hDV hkeysNSY hNSg hSYg
      -- stage 2 row
      have hkeys2 : (dfSetCol (DataFrame.from_dict s)
          "NumberOfSCCs" numSCCs).rows.map Prod.fst = ratio.map Prod.fst := by
        rw [seriesDiv_keys hDV hkeysNSY, hNSval, List.map_map]
        rfl
      obtain ⟨wd', hwd', hres2⟩ :=
        dictGet_zipSet (fun a b => dictSet a "Non/Syn" b) hkeys2 hrows1
      rw [hwd] at hwd'
      injection hwd' with hwd'
      subst hwd'
      have hrows2 : dictGet (dfSetCol (dfSetCol (DataFrame.from_dict s)
          "NumberOfSCCs" numSCCs) "Non/Syn" ratio).rows g = some (dictSet (dictSet
            ((unionCols s).map (fun c => (c, (dictGet row c).getD .nan)))
            "NumberOfSCCs" w₁) "Non/Syn" wd) := hres2
      -- the SCC cell of the stage-2 row
      obtain ⟨hmemSCC, hSCCval⟩ := dfGetCol_ok hSCC
      have hmemSCC' : "SCC_samples_filtered" ∈ unionCols s := by
        rcases mem_dfSetCol_cols hmemSCC with h | h
        · rcases mem_dfSetCol_cols h with h' | h'
          · rwa [from_dict_cols] at h'
          · exact absurd h' (by decide)
        · exact absurd h (by decide)
      have hrow2SCC : dictGet (dictSet (dictSet
          ((unionCols s).map (fun c => (c, (dictGet row c).getD .nan)))
          "NumberOfSCCs" w₁) "Non/Syn" wd) "SCC_samples_filtered" =
          some ((dictGet row "SCC_samples_filtered").getD .nan) := by
        rw [dictGet_dictSet_ne _ _ _ _ (by decide),
          dictGet_dictSet_ne _ _ _ _ (by decide)]
        exact dictGet_fill hmemSCC'
      have hSCCg : dictGet sccCol g =
          some ((dictGet row "SCC_samples_filtered").getD .nan) := by
        rw [hSCCval, dictGet_map_col, hrows2]
        simp [hrow2SCC]
      obtain ⟨w₃, hw₃, hwe₃⟩ := seriesSetLen_get hSL2 hSCCg
      have hkeys3 : (dfSetCol (dfSetCol (DataFrame.from_dict s)
          "NumberOfSCCs" numSCCs) "Non/Syn" ratio).rows.map Prod.fst =
          numFiltered.map Prod.fst := by
        rw [seriesSetLen_keys hSL2, hSCCval, List.map_map]
        rfl
      obtain ⟨w₃', hw₃', hres3⟩ :=
        dictGet_zipSet (fun a b => dictSet a "NumberOfSCCs_filtered" b) hkeys3 hrows2
      rw [hw₃] at hw₃'
      injection hw₃' with hw₃'
      subst hw₃'
      exact ⟨w₁, wd, w₃, hwe₁, hwde, hwe₃, hres3, rfl⟩

/-- A successful build only happens for the two recognized kinds. -/
theorem build_ok_kind {s : Summary} {kind : String} {df : DataFrame}
    (hok : build_summary_table s kind = .ok df) :
    kind = "gene" ∨ kind = "coordinate" := by
  unfold build_summary_table at hok
  simp only [] at hok
  cases hSC : dfGetCol (DataFrame.from_dict s) "Sample" with
  | error e => rw [hSC] at hok; simp at hok
  | ok sampleCol =>
    rw [hSC] at hok
    try simp only [] at hok
    cases hSL : seriesSetLen sampleCol with
    | error e => rw [hSL] at hok; simp at hok
    | ok numSCCs =>
      rw [hSL] at hok
      try simp only [] at hok
      by_cases h1 : kind = "gene"
      · exact .inl h1
      · rw [if_neg h1] at hok
        by_cases h2 : kind = "coordinate"
        · exact .inr h2
        · rw [if_neg h2] at hok
          simp at hok

/-- C2: in every successfully built summary table (either kind), the
NumberOfSCCs cell of a key's row is the number of DISTINCT sample-pair
strings in that key's Sample sequence, not the sequence length. -/
theorem c2_number_of_samples_is_distinct_count (s : Summary) (kind : String)
    (df : DataFrame) (hok : build_summary_table s kind = .ok df)
    (g : String) (row : Row) (ls : List String)
    (hg : dictGet s g = some row)
    (hs : dictGet row "Sample" = some (.strList ls)) :
    ∃ row', dictGet df.rows g = some row' ∧
      dictGet row' "NumberOfSCCs" = some (.nat ls.dedup.length) := by
  rcases build_ok_kind hok with hk | hk
  · subst hk
    obtain ⟨w₁, wd, w₃, hwe₁, _, _, hrow', _⟩ := buildGene_row hok hg
    rw [hs] at hwe₁
    have hw₁ : CellVal.nat ls.dedup.length = w₁ := by
      simpa [applySetLen] using hwe₁
    refine ⟨_, hrow', ?_⟩
    rw [dictGet_dictSet_ne _ _ _ _ (by decide),
      dictGet_dictSet_ne _ _ _ _ (by decide), dictGet_dictSet_self, hw₁]
  · subst hk
    obtain ⟨w, hwe, hrow', _⟩ := buildCoord_row hok hg
    rw [hs] at hwe
    have hw : CellVal.nat ls.dedup.length = w := by
      simpa [applySetLen] using hwe
    exact ⟨_, hrow', by rw [dictGet_dictSet_self, hw]⟩

/-- C2 witness: the coordinate table of the one-entry position summary has
NumberOfSCCs = 1 for chr1_100. -/
theorem c2_witness :
    ∃ df, build_summary_table posSummaryExample "coordinate" = .ok df ∧
      ∃ row', dictGet df.rows "chr1_100" = some row' ∧
        dictGet row' "NumberOfSCCs" = some (.nat 1) :=
  ⟨_, rfl, c2_number_of_samples_is_distinct_count posSummaryExample
    "coordinate" _ rfl "chr1_100"
    [("Gene", .str "TP53"), ("Mutation", .strList ["A/T"]),
     ("Function", .strList ["nonsynonymous_SNV"]),
     ("Sample", .strList ["TumorA:NormalA"])]
    ["TumorA:NormalA"] rfl rfl⟩

/-- C4: the gene table's Non/Syn cell is the float division of the
nonsynonymous_SNV count by the synonymous_SNV count for that gene; a zero
denominator is unguarded and yields inf (or nan when the numerator is also
zero) rather than an error — the build still succeeds. -/
theorem c4_nonsyn_ratio_division_unguarded (s : Summary) (df : DataFrame)
    (hok : build_summary_table s "gene" = .ok df)
    (g : String) (row : Row) (a b : Nat)
    (hg : dictGet s g = some row)
    (ha : dictGet row "nonsynonymous_SNV" = some (.nat a))
    (hb : dictGet row "synonymous_SNV" = some (.nat b)) :
    ∃ row', dictGet df.rows g = some row' ∧
      dictGet row' "Non/Syn" =
        some (if b = 0 then (if a = 0 then CellVal.nan else CellVal.inf)
          else CellVal.qu ((a : Rat) / (b : Rat))) := by
  obtain ⟨w₁, wd, w₃, _, hwde, _, hrow', _⟩ := buildGene_row hok hg
  rw [ha, hb] at hwde
  have hstep : cellDiv (.nat a) (.nat b) = .ok wd := by simpa using hwde
  have hval : Except.ok (ε := String) wd =
      .ok (if b = 0 then (if a = 0 then CellVal.nan else CellVal.inf)
        else CellVal.qu ((a : Rat) / (b : Rat))) := by
    rw [← hstep]
    simp only [cellDiv]
    split_ifs <;> rfl
  injection hval with hval
  refine ⟨_, hrow', ?_⟩
  rw [dictGet_dictSet_ne _ _ _ _ (by decide), dictGet_dictSet_self, hval]

/-- C4 witness: the TP53 row (nonsynonymous 1, synonymous 0) gets an
infinite Non/Syn value and the build succeeds. -/
theorem c4_witness :
    ∃ df, build_summary_table geneSummaryExample "gene" = .ok df ∧
      ∃ row', dictGet df.rows "TP53" = some row' ∧
        dictGet row' "Non/Syn" = some CellVal.inf :=
  ⟨_, rfl, c4_nonsyn_ratio_division_unguarded geneSummaryExample _ rfl "TP53"
    [("Position", .strList ["chr1_100"]), ("Mutation", .strList ["A/T"]),
     ("Sample", .strList ["TumorA:NormalA"]),
     ("SCC_samples_filtered", .strList ["TumorA:NormalA"]),
     ("nonsynonymous_SNV", .nat 1),
     ("UTR3", .nat 0), ("UTR5", .nat 0),
     ("frameshift_deletion", .nat 0), ("frameshift_insertion", .nat 0),
     ("nonframeshift_deletion", .nat 0), ("nonframeshift_insertion", .nat 0),
     ("nonframeshift_substitution", .nat 0), ("stopgain", .nat 0),
     ("stoploss", .nat 0), ("synonymous_SNV", .nat 0), ("unknown", .nat 0)]
    1 0 rfl rfl rfl⟩

/-- C5 counterexample: on the empty summary mapping an unrecognized kind
does NOT fail with the invalid-kind error: the Sample-column KeyError fires
first, because the Sample column is selected before the kind dispatch. -/
theorem c5_counterexample :
    build_summary_table [] "banana" = .error ("KeyError: Sample") ∧
    ("KeyError: Sample" : String) ≠ "banana" ++ " not a valid summary_type!" :=
  ⟨rfl, by decide⟩

/-- C5 (amended): for summary mappings that are non-empty and carry a
Sample list in every entry (as every aggregator output does), an
unrecognized kind fails with the invalid-kind error; and whenever the
builder succeeds, the row index label is Coordinate for kind coordinate
and Gene for kind gene. -/
theorem c5_amended_kind_dispatch (s : Summary) (kind : String)
    (hne : s ≠ [])
    (hwf : ∀ p ∈ s, ∃ l, dictGet p.2 "Sample" = some (.strList l))
    (hkind : kind ≠ "gene" ∧ kind ≠ "coordinate") :
    build_summary_table s kind = .error (kind ++ " not a valid summary_type!") ∧
    (∀ df, build_summary_table s "coordinate" = .ok df →
      df.indexName = some "Coordinate") ∧
    (∀ df, build_summary_table s "gene" = .ok df →
      df.indexName = some "Gene") := by
  refine ⟨?_, ?_, ?_⟩
  · cases s with
    | nil => exact absurd rfl hne
    | cons p t =>
      obtain ⟨l₀, hl₀⟩ := hwf p (List.mem_cons_self p t)
      have hhead : dictGet (p :: t) p.1 = some p.2 := by
        rw [dictGet_cons, if_pos rfl]
      have hmem : "Sample" ∈ unionCols (p :: t) := unionCols_mem hhead hl₀
      have hcol : dfGetCol (DataFrame.from_dict (p :: t)) "Sample" =
          .ok ((DataFrame.from_dict (p :: t)).rows.map
            (fun r => (r.1, (dictGet r.2 "Sample").getD .nan))) := by
        unfold dfGetCol
        rw [if_pos (by rw [from_dict_cols]; exact hmem)]
      obtain ⟨ys, hys⟩ : ∃ ys, seriesSetLen
          ((DataFrame.from_dict (p :: t)).rows.map
            (fun r => (r.1, (dictGet r.2 "Sample").getD .nan))) = .ok ys := by
        refine seriesSetLen_ok_of ?_
        intro q hq
        obtain ⟨r, hr, hrq⟩ := List.mem_map.1 hq
        rw [from_dict_rows] at hr
        obtain ⟨p', hp', hpr⟩ := List.mem_map.1 hr
        obtain ⟨l', hl'⟩ := hwf p' hp'
        subst hrq
        subst hpr
        refine ⟨.nat l'.dedup.length, ?_⟩
        dsimp only
        rw [dictGet_fill hmem, hl']
        rfl
      unfold build_summary_table
      simp only []
      rw [hcol]
      try simp only []
      rw [hys]
      try simp only []
      rw [if_neg hkind.1, if_neg hkind.2]
  · intro df hok
    cases s with
    | nil => exact absurd rfl hne
    | cons p t =>
      have hhead : dictGet (p :: t) p.1 = some p.2 := by
        rw [dictGet_cons, if_pos rfl]
      obtain ⟨w, _, _, hidx⟩ := buildCoord_row hok hhead
      exact hidx
  · intro df hok
    cases s with
    | nil => exact absurd rfl hne
    | cons p t =>
      have hhead : dictGet (p :: t) p.1 = some p.2 := by
        rw [dictGet_cons, if_pos rfl]
      obtain ⟨w₁, wd, w₃, _, _, _, _, hidx⟩ := buildGene_row hok hhead
      exact hidx

/-! ## Order independence of the position batch -/

/-- One position-step on a well-formed summary and record always succeeds
and, for every key, adds the record's mutation string exactly when the
record contributes to that key. -/
theorem posStep_effect (s : Summary) (r : VcfRecord)
    (hwf : PosWF s) (h2 : r.samples.length = 2) :
    ∃ s₁, posStep s r = .ok s₁ ∧ PosWF s₁ ∧
      (∀ k, (dictGet s₁ k).isSome = ((dictGet s k).isSome || contributesB k r)) ∧
      (∀ k, listFieldAt s₁ k "Mutation" = listFieldAt s k "Mutation" ++
        (if contributesB k r then [mutationStr r] else [])) := by
  by_cases hret : retained r
  · obtain ⟨s₁, heq, hwf₁, hframe, hsome, _, hm, _, _⟩ := posStep_ok s r hwf h2 hret
    refine ⟨s₁, heq, hwf₁, ?_, ?_⟩
    · intro k
      by_cases hk : k = positionKey r
      · subst hk
        rw [hsome]
        have hc : contributesB (positionKey r) r = true := by
          simp [contributesB, hret]
        rw [hc, Bool.or_true]
      · rw [hframe k hk]
        have hc : contributesB k r = false := by
          simp only [contributesB, Bool.and_eq_false_iff]
          right
          simp [beq_iff_eq]
          exact Ne.symm hk
        rw [hc, Bool.or_false]
    · intro k
      by_cases hk : k = positionKey r
      · subst hk
        have hc : contributesB (positionKey r) r = true := by
          simp [contributesB, hret]
        rw [hm, hc, if_pos rfl]
      · have hframe' : listFieldAt s₁ k "Mutation" = listFieldAt s k "Mutation" := by
          unfold listFieldAt
          rw [hframe k hk]
        have hc : contributesB k r = false := by
          simp only [contributesB, Bool.and_eq_false_iff]
          right
          simp [beq_iff_eq]
          exact Ne.symm hk
        rw [hframe', hc]
        simp
  · have hret' : ¬ (joinStrs r.func_refGene ∈ ["UTR3", "UTR5", "exonic"]) := hret
    have heq : posStep s r = .ok s := by
      simp only [posStep]
      rw [if_neg hret']
    have hc : ∀ k, contributesB k r = false := by
      intro k
      simp [contributesB, hret]
    refine ⟨s, heq, hwf, fun k => by rw [hc k, Bool.or_false],
      fun k => by rw [hc k]; simp⟩

/-- The record loop on well-formed input: keys are those of the start
summary plus the contributed keys, and each key's Mutation sequence grows
by the in-order mutation strings of its contributing records. -/
theorem foldRecords_pos_effect (rs : List VcfRecord) (s : Summary)
    (hwf : PosWF s) (h2 : ∀ r ∈ rs, r.samples.length = 2) :
    ∃ s₁, foldRecords posStep s rs = .ok s₁ ∧ PosWF s₁ ∧
      (∀ k, (dictGet s₁ k).isSome =
        ((dictGet s k).isSome || rs.any (contributesB k))) ∧
      (∀ k, listFieldAt s₁ k "Mutation" = listFieldAt s k "Mutation" ++
        (rs.filter (contributesB k)).map mutationStr) := by
  induction rs generalizing s with
  | nil =>
    exact ⟨s, rfl, hwf, fun k => by simp, fun k => by simp⟩
  | cons r rs ih =>
    obtain ⟨s₁, heq, hwf₁, hsome₁, hm₁⟩ :=
      posStep_effect s r hwf (h2 r (List.mem_cons_self r rs))
    obtain ⟨s₂, heq₂, hwf₂, hsome₂, hm₂⟩ :=
      ih s₁ hwf₁ (fun r' hr' => h2 r' (List.mem_cons_of_mem r hr'))
    refine ⟨s₂, ?_, hwf₂, ?_, ?_⟩
    · simp only [foldRecords, heq]
      exact heq₂
    · intro k
      rw [hsome₂ k, hsome₁ k, List.any_cons, Bool.or_assoc]
    · intro k
      rw [hm₂ k, hm₁ k, List.filter_cons]
      by_cases hc : contributesB k r = true
      · rw [if_pos hc, if_pos hc, List.map_cons, List.append_assoc]
        rfl
      · rw [if_neg hc, if_neg (by simpa using hc), List.append_nil]

/-- The file loop on present files with well-formed records: keys and
Mutation sequences are determined by the concatenated record stream. -/
theorem foldFiles_pos_effect (vcfs : List String) (fs : FileSystem) (s : Summary)
    (hwf : PosWF s)
    (hfiles : ∀ v ∈ vcfs, (openVcf fs v).isSome = true)
    (hrecs : ∀ v ∈ vcfs, ∀ r ∈ (openVcf fs v).getD [], r.samples.length = 2) :
    ∃ s₁, foldFiles summarize_vcf_by_position fs s vcfs = .ok s₁ ∧ PosWF s₁ ∧
      (∀ k, (dictGet s₁ k).isSome =
        ((dictGet s k).isSome || (recordsOf fs vcfs).any (contributesB k))) ∧
      (∀ k, listFieldAt s₁ k "Mutation" = listFieldAt s k "Mutation" ++
        ((recordsOf fs vcfs).filter (contributesB k)).map mutationStr) := by
  induction vcfs generalizing s with
  | nil =>
    exact ⟨s, rfl, hwf, fun k => by simp [recordsOf], fun k => by simp [recordsOf]⟩
  | cons v vs ih =>
    obtain ⟨records, hrecords⟩ : ∃ records, openVcf fs v = some records := by
      have := hfiles v (List.mem_cons_self v vs)
      cases h : openVcf fs v
      · rw [h] at this; simp at this
      · exact ⟨_, rfl⟩
    obtain ⟨s₁, heq₁, hwf₁, hsome₁, hm₁⟩ :=
      foldRecords_pos_effect records s hwf (by
        have := hrecs v (List.mem_cons_self v vs)
        rwa [hrecords] at this)
    obtain ⟨s₂, heq₂, hwf₂, hsome₂, hm₂⟩ :=
      ih s₁ hwf₁ (fun v' hv' => hfiles v' (List.mem_cons_of_mem v hv'))
        (fun v' hv' => hrecs v' (List.mem_cons_of_mem v hv'))
    have hrecsOf : recordsOf fs (v :: vs) = records ++ recordsOf fs vs := by
      unfold recordsOf
      rw [List.map_cons, List.flatten_cons, hrecords]
      rfl
    refine ⟨s₂, ?_, hwf₂, ?_, ?_⟩
    · simp only [foldFiles, summarize_vcf_by_position, hrecords, heq₁]
      exact heq₂
    · intro k
      rw [hsome₂ k, hsome₁ k, hrecsOf, List.any_append, Bool.or_assoc]
    · intro k
      rw [hm₂ k, hm₁ k, hrecsOf, List.filter_append, List.map_append,
        List.append_assoc]

/-- C8: the batch position summary is order independent up to content:
for two orderings of the same file set (all files present, all records
two-sample), both runs succeed, produce the same key set, and give every
key the same multiset of Mutation entries (the sequences are permutations
of one another; their order may differ). -/
theorem c8_position_batch_order_independent (fs : FileSystem)
    (vcfs₁ vcfs₂ : List String) (hperm : vcfs₁.Perm vcfs₂)
    (hfiles : ∀ v ∈ vcfs₁, (openVcf fs v).isSome = true)
    (hrecs : ∀ v ∈ vcfs₁, ∀ r ∈ (openVcf fs v).getD [], r.samples.length = 2) :
    ∃ s₁ s₂, summarize_by_position fs vcfs₁ = .ok s₁ ∧
      summarize_by_position fs vcfs₂ = .ok s₂ ∧
      (∀ k, (dictGet s₁ k).isSome = (dictGet s₂ k).isSome) ∧
      (∀ k, (listFieldAt s₁ k "Mutation").Perm (listFieldAt s₂ k "Mutation")) := by
  obtain ⟨s₁, heq₁, _, hsome₁, hm₁⟩ :=
    foldFiles_pos_effect vcfs₁ fs [] (fun p hp => absurd hp (List.not_mem_nil p))
      hfiles hrecs
  obtain ⟨s₂, heq₂, _, hsome₂, hm₂⟩ :=
    foldFiles_pos_effect vcfs₂ fs [] (fun p hp => absurd hp (List.not_mem_nil p))
      (fun v hv => hfiles v (hperm.mem_iff.2 hv))
      (fun v hv => hrecs v (hperm.mem_iff.2 hv))
  have hrecsPerm : (recordsOf fs vcfs₁).Perm (recordsOf fs vcfs₂) :=
    ((hperm.map (fun v => (openVcf fs v).getD [])).flatten)
  refine ⟨s₁, s₂, heq₁, heq₂, ?_, ?_⟩
  · intro k
    rw [hsome₁ k, hsome₂ k]
    rw [Bool.eq_iff_iff]
    simp only [Bool.or_eq_true, List.any_eq_true]
    constructor
    · rintro (h | ⟨r, hr, hc⟩)
      · simp [dictGet] at h
      · exact .inr ⟨r, hrecsPerm.mem_iff.1 hr, hc⟩
    · rintro (h | ⟨r, hr, hc⟩)
      · simp [dictGet] at h
      · exact .inr ⟨r, hrecsPerm.mem_iff.2 hr, hc⟩
  · intro k
    rw [hm₁ k, hm₂ k]
    simp only [listFieldAt, dictGet_nil, List.nil_append]
    exact (hrecsPerm.filter (contributesB k)).map mutationStr

/-- C8 witness: the two orderings of the two-file example batch agree on
keys and per-key Mutation multisets. -/
theorem c8_witness :
    ∃ s₁ s₂, summarize_by_position fsExample ["a.vcf", "b.vcf"] = .ok s₁ ∧
      summarize_by_position fsExample ["b.vcf", "a.vcf"] = .ok s₂ ∧
      (∀ k, (dictGet s₁ k).isSome = (dictGet s₂ k).isSome) ∧
      (∀ k, (listFieldAt s₁ k "Mutation").Perm (listFieldAt s₂ k "Mutation")) :=
  c8_position_batch_order_independent fsExample ["a.vcf", "b.vcf"]
    ["b.vcf", "a.vcf"] (by decide) (by decide) (by decide)

/-- C5 witness: the amended statement at the one-entry position summary
and the kind "banana". -/
theorem c5_witness :
    build_summary_table posSummaryExample "banana" =
      .error ("banana" ++ " not a valid summary_type!") ∧
    (∀ df, build_summary_table posSummaryExample "coordinate" = .ok df →
      df.indexName = some "Coordinate") ∧
    (∀ df, build_summary_table posSummaryExample "gene" = .ok df →
      df.indexName = some "Gene") :=
  c5_amended_kind_dispatch posSummaryExample "banana" (by decide)
    (by
      intro p hp
      simp only [posSummaryExample, List.mem_singleton] at hp
      subst hp
      exact ⟨["TumorA:NormalA"], rfl⟩)
    (by decide)

end SV
